import Mathlib

/-!
Shallow embedding of the HousePlants API (Django / Django REST Framework
application) for specification checking.

The embedding models:
* `src/app/core/models.py` — the `User`, `Plant`, `Tag`, `CareTip` tables and
  `UserManager.create_user`;
* `src/app/plant/serializers.py` — `PlantSerializer` with its nested
  get-or-create logic for tags and care tips;
* `src/app/plant/views.py` — `PlantViewSet`, `TagViewSet`, `CareTipViewSet`
  queryset construction, object lookup and the detail actions;
* `src/app/plant/urls.py` — the router registrations.

The database is a value of type `DB`: lists of rows plus per-table
auto-increment counters.  Query sets are lists of rows; the SQL joins
produced by `filter(tags__id__in=...)` are modelled as row-multiplying
flat-maps, `.distinct()` as list deduplication and `.order_by(...)` as an
insertion sort, mirroring `SELECT DISTINCT ... ORDER BY ...`.

Python string primitives used by the source (`str.strip`, `str.split`,
`str.lower`, `int(...)`) are modelled on `List Char` so that every
definition evaluates inside the kernel.  A raised, uncaught Python
exception (`ValueError` from `int`, `MultipleObjectsReturned` from
`get_or_create`) is modelled by `none` in an `Option` result.
-/



/-! ## Python string primitives -/

/-- Models Python `str.strip()` (as used by `int(...)` conversion and
`BaseUserManager.normalize_email`): drop leading and trailing whitespace
characters.  The exotic Python whitespace code points beyond space, tab,
CR and LF are not exercised by this code base. -/
def pyStrip (cs : List Char) : List Char :=
  ((cs.dropWhile Char.isWhitespace).reverse.dropWhile Char.isWhitespace).reverse

/-- Models Python `str.split(sep)` for a one-character separator, e.g.
`"1,,2".split(',') == ['1', '', '2']` and `"".split(',') == ['']`. -/
def pySplit (c : Char) : List Char → List (List Char)
  | [] => [[]]
  | x :: rest =>
    match pySplit c rest with
    | [] => [[]]
    | g :: gs => if x = c then [] :: g :: gs else (x :: g) :: gs

/-- Models Python `int(s)` on a decimal string: strip whitespace, allow one
leading sign, then require one or more ASCII digits; anything else raises
`ValueError`, modelled as `none`.  (Digit-grouping underscores accepted by
Python are not modelled; the code base never passes them.) -/
def pythonInt (s : String) : Option Int :=
  let t := pyStrip s.data
  let signed : Int × List Char :=
    match t with
    | '-' :: rest => (-1, rest)
    | '+' :: rest => (1, rest)
    | l => (1, l)
  if signed.2 = [] then none
  else if signed.2.all Char.isDigit then
    some (signed.1 * (signed.2.foldl (fun acc c => acc * 10 + ((c.toNat : Int) - 48)) 0))
  else none

/-- Split a character list at the LAST occurrence of `c`, as Python
`s.rsplit(c, 1)` does when `c` occurs: returns the part before and the part
after that occurrence, or `none` when `c` does not occur. -/
def rsplitLast (c : Char) : List Char → Option (List Char × List Char)
  | [] => none
  | x :: rest =>
    match rsplitLast c rest with
    | some (b, a) => some (x :: b, a)
    | none => if x = c then some ([], rest) else none

/-! ## `core/models.py` -/

/-- Models the framework helper `BaseUserManager.normalize_email` called by
`UserManager.create_user` (src/app/core/models.py): strip the email, split
at the last `@`, lowercase the domain part and keep the local part as
given; an email without `@` is returned unchanged. -/
def normalize_email (email : String) : String :=
  match rsplitLast '@' (pyStrip email.data) with
  | none => email
  | some (l, d) => String.mk (l ++ '@' :: d.map Char.toLower)

/-- A row of the user table (`class User`, src/app/core/models.py).
`password` abstracts the hashed credential stored by `set_password`. -/
structure UserRow where
  id : Int
  email : String
  name : String := ""
  is_active : Bool := true
  is_staff : Bool := false
  is_superuser : Bool := false
  password : Option String := none
deriving DecidableEq, Repr

/-- A row of the tag table (`class Tag`, src/app/core/models.py):
a name plus the owning user (foreign key, `on_delete=CASCADE`). -/
structure Tag where
  id : Int
  name : String
  user : Int
deriving DecidableEq, Repr

/-- A row of the care-tip table (`class CareTip`, src/app/core/models.py):
the same shape as `Tag`. -/
structure CareTip where
  id : Int
  name : String
  user : Int
deriving DecidableEq, Repr

/-- A row of the plant table (`class Plant`, src/app/core/models.py).
`price` models the `DecimalField(5, 2)` as an integer number of cents.
The two many-to-many join tables are stored with the plant row as the
lists of attached tag ids and care-tip ids. -/
structure Plant where
  id : Int
  user : Int
  title : String
  description : String := ""
  price : Int := 0
  link : String := ""
  tags : List Int := []
  care_tips : List Int := []
  image : Option String := none
deriving DecidableEq, Repr

/-- The database: one list of rows per table, plus the auto-increment
counters handing out primary keys. -/
structure DB where
  users : List UserRow := []
  plants : List Plant := []
  tags : List Tag := []
  careTips : List CareTip := []
  nextUserId : Int := 1
  nextPlantId : Int := 1
  nextTagId : Int := 1
  nextCareTipId : Int := 1
deriving DecidableEq, Repr

/-- `UserManager.create_user` (src/app/core/models.py): raise `ValueError`
(modelled by `Except.error`) when the email is falsy (the empty string),
otherwise insert a new user whose email is normalized. -/
def UserManager.create_user (db : DB) (email : String) (password : Option String) :
    Except String (DB × UserRow) :=
  if email = "" then
    Except.error "User must have an email."
  else
    let u : UserRow :=
      { id := db.nextUserId, email := normalize_email email, password := password }
    Except.ok ({ db with users := db.users ++ [u], nextUserId := db.nextUserId + 1 }, u)

/-- The user store that results from a `create_user` call: on a raised
`ValueError` the store is whatever it was before the call. -/
def UserManager.create_user_store (db : DB) (email : String) (password : Option String) : DB :=
  match UserManager.create_user db email password with
  | Except.ok (db', _) => db'
  | Except.error _ => db

/-- Deleting a `Plant` row (`instance.delete()`): the row and its join-table
entries (stored inside the row) disappear; nothing else references a plant
with `on_delete=CASCADE`, so no other table changes. -/
def deletePlant (db : DB) (pid : Int) : DB :=
  { db with plants := db.plants.filter (fun p => ¬ p.id = pid) }

/-- Deleting a `User` row: the `user` foreign keys on `Plant`, `Tag` and
`CareTip` are declared `on_delete=CASCADE` (src/app/core/models.py), so all
rows owned by the user are deleted; join-table entries referencing a
deleted tag or care tip are removed from the surviving plants. -/
def deleteUser (db : DB) (uid : Int) : DB :=
  let goneTags := (db.tags.filter (fun t => t.user = uid)).map (fun t => t.id)
  let goneTips := (db.careTips.filter (fun t => t.user = uid)).map (fun t => t.id)
  { db with
    users := db.users.filter (fun u => ¬ u.id = uid)
    plants := (db.plants.filter (fun p => ¬ p.user = uid)).map
      (fun p => { p with
        tags := p.tags.filter (fun i => ¬ i ∈ goneTags)
        care_tips := p.care_tips.filter (fun i => ¬ i ∈ goneTips) })
    tags := db.tags.filter (fun t => ¬ t.user = uid)
    careTips := db.careTips.filter (fun t => ¬ t.user = uid) }

/-! ## `plant/urls.py` — the router -/

/-- The three viewsets defined in src/app/plant/views.py. -/
inductive ViewSetKind
  | plantViewSet
  | tagViewSet
  | careTipViewSet
deriving DecidableEq, Repr

/-- The registrations performed on the `DefaultRouter` in
src/app/plant/urls.py: `router.register('plants', views.PlantViewSet)` and
`router.register('tags', views.TagViewSet)`, and nothing else. -/
def router_registrations : List (String × ViewSetKind) :=
  [("plants", ViewSetKind.plantViewSet), ("tags", ViewSetKind.tagViewSet)]

/-- URL dispatch of a resource prefix to a registered viewset. -/
def routerDispatch (pre : String) : Option ViewSetKind :=
  (router_registrations.find? (fun r => r.1 = pre)).map (fun r => r.2)

/-! ## `plant/serializers.py` -/

/-- The writable payload of `PlantSerializer` after validation
(`Meta.fields` minus the read-only `id`; the detail serializer adds
`description`).  A `none` field was absent from the request body; the tag
and care-tip lists carry the nested `name` values, the only writable field
of the nested serializers. -/
structure ValidatedData where
  title : Option String := none
  description : Option String := none
  price : Option Int := none
  link : Option String := none
  tags : Option (List String) := none
  care_tips : Option (List String) := none
deriving DecidableEq, Repr

/-- A raw request body for a plant write.  Beyond the serializer fields it
can carry an owner value and an id, which the serializer does not declare
and therefore drops. -/
structure RawBody where
  title : Option String := none
  description : Option String := none
  price : Option Int := none
  link : Option String := none
  tags : Option (List String) := none
  care_tips : Option (List String) := none
  user : Option Int := none
  id : Option Int := none
deriving DecidableEq, Repr

/-- Validation of a raw body by `PlantDetailSerializer`: keep exactly the
declared writable fields; `user` and `id` are not declared writable fields
and are silently discarded. -/
def PlantSerializer.to_internal_value (b : RawBody) : ValidatedData :=
  { title := b.title, description := b.description, price := b.price,
    link := b.link, tags := b.tags, care_tips := b.care_tips }

/-- Apply `f` to the plant rows with id `pid`, leave the others alone. -/
def guardUpd (pid : Int) (f : Plant → Plant) (p : Plant) : Plant :=
  if p.id = pid then f p else p

/-- Row update on the plant table. -/
def updatePlantRec (db : DB) (pid : Int) (f : Plant → Plant) : DB :=
  { db with plants := db.plants.map (guardUpd pid f) }

/-- `instance.tags.clear()`: remove all tag join rows of the plant. -/
def clearTags (db : DB) (pid : Int) : DB :=
  updatePlantRec db pid (fun p => { p with tags := [] })

/-- `instance.care_tips.clear()`. -/
def clearCareTips (db : DB) (pid : Int) : DB :=
  updatePlantRec db pid (fun p => { p with care_tips := [] })

/-- `plant.tags.add(tag_obj)`: a many-to-many add inserts the join row
unless it is already present. -/
def attachTag (db : DB) (pid tid : Int) : DB :=
  updatePlantRec db pid
    (fun p => { p with tags := if tid ∈ p.tags then p.tags else p.tags ++ [tid] })

/-- `plant.care_tips.add(caretip_obj)`. -/
def attachCareTip (db : DB) (pid cid : Int) : DB :=
  updatePlantRec db pid
    (fun p => { p with care_tips := if cid ∈ p.care_tips then p.care_tips else p.care_tips ++ [cid] })

/-- `Tag.objects.get_or_create(user=auth_user, name=name)`: return the
matching row when exactly one exists, insert and return a fresh row when
none exists, and raise `MultipleObjectsReturned` (modelled by `none`) when
several match. -/
def getOrCreateTag (db : DB) (u : Int) (nm : String) : Option (DB × Tag) :=
  match db.tags.filter (fun t => t.user = u ∧ t.name = nm) with
  | [] =>
    let t : Tag := { id := db.nextTagId, name := nm, user := u }
    some ({ db with tags := db.tags ++ [t], nextTagId := db.nextTagId + 1 }, t)
  | [t] => some (db, t)
  | _ => none

/-- `CareTip.objects.get_or_create(user=auth_user, name=name)`. -/
def getOrCreateCareTip (db : DB) (u : Int) (nm : String) : Option (DB × CareTip) :=
  match db.careTips.filter (fun t => t.user = u ∧ t.name = nm) with
  | [] =>
    let t : CareTip := { id := db.nextCareTipId, name := nm, user := u }
    some ({ db with careTips := db.careTips ++ [t], nextCareTipId := db.nextCareTipId + 1 }, t)
  | [t] => some (db, t)
  | _ => none

/-- `PlantSerializer._get_or_create_tags`: for each submitted name,
get-or-create the tag for the authenticated user and attach it to the
plant. -/
def get_or_create_tags (db : DB) (u : Int) (names : List String) (pid : Int) : Option DB :=
  match names with
  | [] => some db
  | nm :: rest =>
    match getOrCreateTag db u nm with
    | none => none
    | some (db', t) => get_or_create_tags (attachTag db' pid t.id) u rest pid

/-- `PlantSerializer._get_or_create_care_tips`. -/
def get_or_create_care_tips (db : DB) (u : Int) (names : List String) (pid : Int) : Option DB :=
  match names with
  | [] => some db
  | nm :: rest =>
    match getOrCreateCareTip db u nm with
    | none => none
    | some (db', t) => get_or_create_care_tips (attachCareTip db' pid t.id) u rest pid

/-- The `setattr` loop plus `instance.save()` at the end of
`PlantSerializer.update`: write every scalar field present in the
validated data onto the row. -/
def applyScalars (db : DB) (pid : Int) (vd : ValidatedData) : DB :=
  updatePlantRec db pid
    (fun p => { p with
      title := vd.title.getD p.title
      description := vd.description.getD p.description
      price := vd.price.getD p.price
      link := vd.link.getD p.link })

/-- The plant row built by `Plant.objects.create(**validated_data)`:
the scalar fields of the validated data plus the injected owner; absent
optional fields take the model defaults. -/
def createdPlantRow (db : DB) (u : Int) (vd : ValidatedData) : Plant :=
  { id := db.nextPlantId, user := u, title := vd.title.getD "",
    description := vd.description.getD "", price := vd.price.getD 0,
    link := vd.link.getD "" }

/-- The state right after `Plant.objects.create(...)` inserted the row. -/
def createInsertDB (db : DB) (u : Int) (vd : ValidatedData) : DB :=
  { db with
    plants := db.plants ++ [createdPlantRow db u vd]
    nextPlantId := db.nextPlantId + 1 }

/-- `PlantSerializer.create` with the owner injected by
`perform_create` (`serializer.save(user=self.request.user)`): pop the tag
and care-tip lists (defaulting to empty), create the plant row, then
get-or-create and attach each label.  Returns the new state and the new
plant id. -/
def PlantSerializer.create (db : DB) (u : Int) (vd : ValidatedData) : Option (DB × Int) :=
  match get_or_create_tags (createInsertDB db u vd) u (vd.tags.getD []) db.nextPlantId with
  | none => none
  | some db2 =>
    match get_or_create_care_tips db2 u (vd.care_tips.getD []) db.nextPlantId with
    | none => none
    | some db3 => some (db3, db.nextPlantId)

/-- `PlantSerializer.update`: pop the tag and care-tip lists (defaulting
to `None`); when a list is present, clear the association and reattach
the named labels; finally write the remaining scalar fields and save. -/
def PlantSerializer.update (db : DB) (u : Int) (pid : Int) (vd : ValidatedData) : Option DB :=
  match (match vd.tags with
         | none => some db
         | some names => get_or_create_tags (clearTags db pid) u names pid) with
  | none => none
  | some db1 =>
    match (match vd.care_tips with
           | none => some db1
           | some names => get_or_create_care_tips (clearCareTips db1 pid) u names pid) with
    | none => none
    | some db2 => some (applyScalars db2 pid vd)

/-- An update request run through the serializer: validate the raw body,
then apply `PlantSerializer.update`. -/
def PlantSerializer.run_update (db : DB) (u : Int) (pid : Int) (b : RawBody) : Option DB :=
  PlantSerializer.update db u pid (PlantSerializer.to_internal_value b)

/-! ## `plant/views.py` -/

/-- `PlantViewSet._params_to_ints`: split a comma separated string and
convert each piece with `int(...)`; a piece that is not an integer literal
raises `ValueError`, modelled by `none`. -/
def params_to_ints (qs : String) : Option (List Int) :=
  ((pySplit ',' qs.data).map String.mk).mapM pythonInt

/-- Python truthiness of `query_params.get(...)`: absent (`None`) and the
empty string are falsy. -/
def truthy : Option String → Bool
  | none => false
  | some s => ¬ s = ""

/-- `queryset.filter(tags__id__in=tag_ids)`: the SQL join yields one row
per (plant, matching join entry) pair; duplicates survive until
`.distinct()`. -/
def joinTagFilter (ps : List Plant) (ids : List Int) : List Plant :=
  ps.flatMap (fun p => (p.tags.filter (fun tid => tid ∈ ids)).map (fun _ => p))

/-- `queryset.filter(care_tips__id__in=care_tip_ids)`. -/
def joinCareTipFilter (ps : List Plant) (ids : List Int) : List Plant :=
  ps.flatMap (fun p => (p.care_tips.filter (fun cid => cid ∈ ids)).map (fun _ => p))

instance : DecidableRel (fun a b : Plant => b.id ≤ a.id) :=
  fun a b => inferInstanceAs (Decidable (b.id ≤ a.id))

instance : IsTotal Plant (fun a b : Plant => b.id ≤ a.id) :=
  ⟨fun a b => Int.le_total b.id a.id⟩

instance : IsTrans Plant (fun a b : Plant => b.id ≤ a.id) :=
  ⟨fun _ _ _ hab hbc => le_trans hbc hab⟩

instance : DecidableRel (fun a b : Tag => b.name ≤ a.name) :=
  fun a b => inferInstanceAs (Decidable (b.name ≤ a.name))

instance : DecidableRel (fun a b : CareTip => b.name ≤ a.name) :=
  fun a b => inferInstanceAs (Decidable (b.name ≤ a.name))

/-- `.order_by('-id').distinct()` on a plant queryset:
`SELECT DISTINCT ... ORDER BY id DESC`. -/
def orderByIdDescDistinct (ps : List Plant) : List Plant :=
  (List.insertionSort (fun a b : Plant => b.id ≤ a.id) ps).dedup

/-- `.order_by('-name').distinct()` on a tag queryset. -/
def orderByNameDescDistinctTag (ts : List Tag) : List Tag :=
  (List.insertionSort (fun a b : Tag => b.name ≤ a.name) ts).dedup

/-- `.order_by('-name').distinct()` on a care-tip queryset. -/
def orderByNameDescDistinctCareTip (ts : List CareTip) : List CareTip :=
  (List.insertionSort (fun a b : CareTip => b.name ≤ a.name) ts).dedup

/-- The query parameters read by `PlantViewSet.get_queryset`. -/
structure PlantListParams where
  tags : Option String := none
  care_tips : Option String := none
deriving DecidableEq, Repr

/-- `PlantViewSet.get_queryset`: optionally join-filter by tag ids and
care-tip ids, then restrict to the authenticated user's rows, order by
descending id and deduplicate.  `none` models an uncaught `ValueError`
escaping from `int(...)`. -/
def PlantViewSet.get_queryset (db : DB) (u : Int) (params : PlantListParams) :
    Option (List Plant) :=
  Option.bind
    (if truthy params.tags then
       (params_to_ints (params.tags.getD "")).map (joinTagFilter db.plants)
     else some db.plants)
    (fun q1 =>
      Option.bind
        (if truthy params.care_tips then
           (params_to_ints (params.care_tips.getD "")).map (joinCareTipFilter q1)
         else some q1)
        (fun q2 => some (orderByIdDescDistinct (q2.filter (fun p => p.user = u)))))

/-- The query parameters read by `BasePlantAttrViewSet.get_queryset`. -/
structure AttrListParams where
  assigned_only : Option String := none
deriving DecidableEq, Repr

/-- `int(self.request.query_params.get('assigned_only', 0))`: the integer
default when the parameter is absent, `int(...)` conversion of the string
when present. -/
def assignedOnlyInt (p : Option String) : Option Int :=
  match p with
  | none => some 0
  | some s => pythonInt s

/-- `TagViewSet` queryset (`BasePlantAttrViewSet.get_queryset` with
`queryset = Tag.objects.all()`): when `assigned_only` is truthy, the
reverse join `filter(plant__isnull=False)` keeps one row per (tag,
attached plant) pair; then restrict to the user, order by descending name
and deduplicate. -/
def TagViewSet.get_queryset (db : DB) (u : Int) (params : AttrListParams) :
    Option (List Tag) :=
  (assignedOnlyInt params.assigned_only).map (fun n =>
    let q1 := if ¬ n = 0 then
        db.tags.flatMap (fun t =>
          (db.plants.filter (fun p => t.id ∈ p.tags)).map (fun _ => t))
      else db.tags
    orderByNameDescDistinctTag (q1.filter (fun t => t.user = u)))

/-- `CareTipViewSet` queryset. -/
def CareTipViewSet.get_queryset (db : DB) (u : Int) (params : AttrListParams) :
    Option (List CareTip) :=
  (assignedOnlyInt params.assigned_only).map (fun n =>
    let q1 := if ¬ n = 0 then
        db.careTips.flatMap (fun t =>
          (db.plants.filter (fun p => t.id ∈ p.care_tips)).map (fun _ => t))
      else db.careTips
    orderByNameDescDistinctCareTip (q1.filter (fun t => t.user = u)))

/-- Outcome of a detail request, after authentication succeeded.
`notFound` is HTTP 404, `forbidden` is HTTP 403 (never produced by this
code: no object-level permission is configured), `methodNotAllowed` is
HTTP 405 (the action is not bound on the viewset), `serverError` models an
uncaught exception. -/
inductive DetailResponse (α : Type)
  | ok (x : α)
  | notFound
  | forbidden
  | methodNotAllowed
  | serverError
deriving DecidableEq, Repr

/-- The framework `get_object` used by the retrieve/update/destroy mixins:
look the pk up inside `get_queryset` and raise `Http404` when it is not
there. -/
def PlantViewSet.get_object (db : DB) (u : Int) (params : PlantListParams) (pk : Int) :
    DetailResponse Plant :=
  match PlantViewSet.get_queryset db u params with
  | none => DetailResponse.serverError
  | some qs =>
    match qs.find? (fun p => p.id = pk) with
    | some p => DetailResponse.ok p
    | none => DetailResponse.notFound

/-- The retrieve action on a plant detail URL. -/
def PlantViewSet.retrieve (db : DB) (u : Int) (params : PlantListParams) (pk : Int) :
    DetailResponse Plant :=
  PlantViewSet.get_object db u params pk

/-- The destroy action: look the object up, then delete it. -/
def PlantViewSet.destroy (db : DB) (u : Int) (params : PlantListParams) (pk : Int) :
    DetailResponse Unit × DB :=
  match PlantViewSet.get_object db u params pk with
  | DetailResponse.ok p => (DetailResponse.ok (), deletePlant db p.id)
  | DetailResponse.notFound => (DetailResponse.notFound, db)
  | DetailResponse.forbidden => (DetailResponse.forbidden, db)
  | DetailResponse.methodNotAllowed => (DetailResponse.methodNotAllowed, db)
  | DetailResponse.serverError => (DetailResponse.serverError, db)

/-- The update / partial-update action: look the object up, validate the
body and run the serializer update. -/
def PlantViewSet.partial_update (db : DB) (u : Int) (params : PlantListParams) (pk : Int)
    (b : RawBody) : DetailResponse Unit × DB :=
  match PlantViewSet.get_object db u params pk with
  | DetailResponse.ok p =>
    match PlantSerializer.run_update db u p.id b with
    | some db' => (DetailResponse.ok (), db')
    | none => (DetailResponse.serverError, db)
  | DetailResponse.notFound => (DetailResponse.notFound, db)
  | DetailResponse.forbidden => (DetailResponse.forbidden, db)
  | DetailResponse.methodNotAllowed => (DetailResponse.methodNotAllowed, db)
  | DetailResponse.serverError => (DetailResponse.serverError, db)

/-- `get_object` for the tag viewset. -/
def TagViewSet.get_object (db : DB) (u : Int) (params : AttrListParams) (pk : Int) :
    DetailResponse Tag :=
  match TagViewSet.get_queryset db u params with
  | none => DetailResponse.serverError
  | some qs =>
    match qs.find? (fun t => t.id = pk) with
    | some t => DetailResponse.ok t
    | none => DetailResponse.notFound

/-- Deleting a `Tag` row also removes the join rows referencing it. -/
def deleteTag (db : DB) (tid : Int) : DB :=
  { db with
    tags := db.tags.filter (fun t => ¬ t.id = tid)
    plants := db.plants.map (fun p => { p with tags := p.tags.filter (fun i => ¬ i = tid) }) }

/-- Deleting a `CareTip` row. -/
def deleteCareTip (db : DB) (cid : Int) : DB :=
  { db with
    careTips := db.careTips.filter (fun t => ¬ t.id = cid)
    plants := db.plants.map
      (fun p => { p with care_tips := p.care_tips.filter (fun i => ¬ i = cid) }) }

/-- The destroy action of the tag viewset. -/
def TagViewSet.destroy (db : DB) (u : Int) (params : AttrListParams) (pk : Int) :
    DetailResponse Unit × DB :=
  match TagViewSet.get_object db u params pk with
  | DetailResponse.ok t => (DetailResponse.ok (), deleteTag db t.id)
  | DetailResponse.notFound => (DetailResponse.notFound, db)
  | DetailResponse.forbidden => (DetailResponse.forbidden, db)
  | DetailResponse.methodNotAllowed => (DetailResponse.methodNotAllowed, db)
  | DetailResponse.serverError => (DetailResponse.serverError, db)

/-- The rename body accepted by the tag / care-tip serializers. -/
structure AttrBody where
  name : Option String := none
deriving DecidableEq, Repr

/-- The update action of the tag viewset (rename). -/
def TagViewSet.partial_update (db : DB) (u : Int) (params : AttrListParams) (pk : Int)
    (b : AttrBody) : DetailResponse Unit × DB :=
  match TagViewSet.get_object db u params pk with
  | DetailResponse.ok t =>
    let renamed := db.tags.map
      (fun x => if x.id = t.id then { x with name := b.name.getD x.name } else x)
    (DetailResponse.ok (), { db with tags := renamed })
  | DetailResponse.notFound => (DetailResponse.notFound, db)
  | DetailResponse.forbidden => (DetailResponse.forbidden, db)
  | DetailResponse.methodNotAllowed => (DetailResponse.methodNotAllowed, db)
  | DetailResponse.serverError => (DetailResponse.serverError, db)

/-- `get_object` for the care-tip viewset. -/
def CareTipViewSet.get_object (db : DB) (u : Int) (params : AttrListParams) (pk : Int) :
    DetailResponse CareTip :=
  match CareTipViewSet.get_queryset db u params with
  | none => DetailResponse.serverError
  | some qs =>
    match qs.find? (fun t => t.id = pk) with
    | some t => DetailResponse.ok t
    | none => DetailResponse.notFound

/-- The destroy action of the care-tip viewset. -/
def CareTipViewSet.destroy (db : DB) (u : Int) (params : AttrListParams) (pk : Int) :
    DetailResponse Unit × DB :=
  match CareTipViewSet.get_object db u params pk with
  | DetailResponse.ok t => (DetailResponse.ok (), deleteCareTip db t.id)
  | DetailResponse.notFound => (DetailResponse.notFound, db)
  | DetailResponse.forbidden => (DetailResponse.forbidden, db)
  | DetailResponse.methodNotAllowed => (DetailResponse.methodNotAllowed, db)
  | DetailResponse.serverError => (DetailResponse.serverError, db)

/-- The update action of the care-tip viewset (rename). -/
def CareTipViewSet.partial_update (db : DB) (u : Int) (params : AttrListParams) (pk : Int)
    (b : AttrBody) : DetailResponse Unit × DB :=
  match CareTipViewSet.get_object db u params pk with
  | DetailResponse.ok t =>
    let renamed := db.careTips.map
      (fun x => if x.id = t.id then { x with name := b.name.getD x.name } else x)
    (DetailResponse.ok (), { db with careTips := renamed })
  | DetailResponse.notFound => (DetailResponse.notFound, db)
  | DetailResponse.forbidden => (DetailResponse.forbidden, db)
  | DetailResponse.methodNotAllowed => (DetailResponse.methodNotAllowed, db)
  | DetailResponse.serverError => (DetailResponse.serverError, db)

/-! ## Helper lemmas on the string primitives -/

/-- Python `str.lower()`, for stating results about normalized emails. -/
def pyLower (s : String) : String :=
  String.mk (s.data.map Char.toLower)

/-- `BasePlantAttrViewSet` composes only `DestroyModelMixin`,
`UpdateModelMixin` and `ListModelMixin` (src/app/plant/views.py), so the
tag viewset binds no retrieve action: the router leaves detail `GET`
unbound and the framework answers HTTP 405 regardless of the targeted
row. -/
def TagViewSet.retrieve (_db : DB) (_u : Int) (_params : AttrListParams) (_pk : Int) :
    DetailResponse Tag :=
  DetailResponse.methodNotAllowed

/-- The care-tip viewset likewise binds no retrieve action. -/
def CareTipViewSet.retrieve (_db : DB) (_u : Int) (_params : AttrListParams) (_pk : Int) :
    DetailResponse CareTip :=
  DetailResponse.methodNotAllowed

/-! ## Concrete sample data -/

/-- A plant owned by user 2, used to probe cross-user access by user 1. -/
def otherPlant : Plant :=
  { id := 11, user := 2, title := "Fern", tags := [21], care_tips := [31] }

/-- A tag owned by user 2. -/
def otherTag : Tag := { id := 21, name := "shade", user := 2 }

/-- A care tip owned by user 2. -/
def otherTip : CareTip := { id := 31, name := "mist", user := 2 }

/-- A small concrete database with two users and rows for both. -/
def sampleDB : DB :=
  { users := [{ id := 1, email := "user@example.com" },
              { id := 2, email := "other@example.com" }],
    plants := [{ id := 10, user := 1, title := "ZZ Plant", tags := [20], care_tips := [30] },
               otherPlant,
               { id := 12, user := 1, title := "Aloe", tags := [20, 22] }],
    tags := [{ id := 20, name := "low cost", user := 1 },
             otherTag,
             { id := 22, name := "popular", user := 1 }],
    careTips := [{ id := 30, name := "water weekly", user := 1 }, otherTip],
    nextUserId := 3, nextPlantId := 13, nextTagId := 23, nextCareTipId := 32 }

/-! ## Machinery for the nested get-or-create folds (C4, C5, C6) -/

/-- Iterated many-to-many `add`: attach each id in order, skipping ids
already present. -/
def foldAttach (acc : List Int) (ids : List Int) : List Int :=
  ids.foldl (fun a i => if i ∈ a then a else a ++ [i]) acc

/-- Number of tag rows with a given (owner, name) key. -/
def tagKeyCount (ts : List Tag) (u : Int) (nm : String) : Nat :=
  (ts.filter (fun t => t.user = u ∧ t.name = nm)).length

/-- Number of care-tip rows with a given (owner, name) key. -/
def careTipKeyCount (ts : List CareTip) (u : Int) (nm : String) : Nat :=
  (ts.filter (fun t => t.user = u ∧ t.name = nm)).length

/-- No two tag rows share an (owner, name) key: the invariant
`get_or_create` keeps, and the condition under which its `.get()` call
cannot raise `MultipleObjectsReturned`. -/
def TagKeysNodup (ts : List Tag) : Prop :=
  (ts.map (fun t => (t.user, t.name))).Nodup

/-- No two care-tip rows share an (owner, name) key. -/
def CareTipKeysNodup (ts : List CareTip) : Prop :=
  (ts.map (fun t => (t.user, t.name))).Nodup

instance (ts : List Tag) : Decidable (TagKeysNodup ts) := by
  unfold TagKeysNodup; infer_instance

instance (ts : List CareTip) : Decidable (CareTipKeysNodup ts) := by
  unfold CareTipKeysNodup; infer_instance

/-- The tag id is linked to every plant row carrying the requested pk. -/
def tagAttached (db : DB) (pid tid : Int) : Prop :=
  ∀ p ∈ db.plants, p.id = pid → tid ∈ p.tags

/-- The care-tip id is linked to every plant row carrying the requested
pk. -/
def careTipAttached (db : DB) (pid cid : Int) : Prop :=
  ∀ p ∈ db.plants, p.id = pid → cid ∈ p.care_tips

/-- The fresh row `get_or_create` inserts for a missing (owner, name)
tag key. -/
def newTag (db : DB) (u : Int) (nm : String) : Tag :=
  { id := db.nextTagId, name := nm, user := u }

/-- The state after inserting that fresh tag row. -/
def insertTag (db : DB) (u : Int) (nm : String) : DB :=
  { db with tags := db.tags ++ [newTag db u nm], nextTagId := db.nextTagId + 1 }

/-- The fresh row `get_or_create` inserts for a missing (owner, name)
care-tip key. -/
def newCareTip (db : DB) (u : Int) (nm : String) : CareTip :=
  { id := db.nextCareTipId, name := nm, user := u }

/-- The state after inserting that fresh care-tip row. -/
def insertCareTip (db : DB) (u : Int) (nm : String) : DB :=
  { db with
    careTips := db.careTips ++ [newCareTip db u nm]
    nextCareTipId := db.nextCareTipId + 1 }

/-- What one run of `_get_or_create_tags` guarantees, relating the state
before (`db`) and after (`db2`), with `ids` the tag ids attached along the
way. -/
structure TagFoldSpec (db : DB) (u : Int) (names : List String) (pid : Int)
    (db2 : DB) (ids : List Int) : Prop where
  nodup : TagKeysNodup db2.tags
  ext : ∃ newts, db2.tags = db.tags ++ newts
  count : ∀ u' n', tagKeyCount db2.tags u' n' =
    if u' = u ∧ n' ∈ names ∧ tagKeyCount db.tags u' n' = 0 then 1
    else tagKeyCount db.tags u' n'
  ids_char : ∀ tid ∈ ids, ∃ t ∈ db2.tags, t.id = tid ∧ t.user = u ∧ t.name ∈ names
  names_char : ∀ n ∈ names, ∃ t ∈ db2.tags, t.user = u ∧ t.name = n ∧ t.id ∈ ids
  plants : db2.plants =
    db.plants.map (guardUpd pid (fun p => { p with tags := foldAttach p.tags ids }))
  tips : db2.careTips = db.careTips
  users : db2.users = db.users
  nextP : db2.nextPlantId = db.nextPlantId
  nextC : db2.nextCareTipId = db.nextCareTipId

/-- What one run of `_get_or_create_care_tips` guarantees. -/
structure CareTipFoldSpec (db : DB) (u : Int) (names : List String) (pid : Int)
    (db2 : DB) (ids : List Int) : Prop where
  nodup : CareTipKeysNodup db2.careTips
  ext : ∃ newts, db2.careTips = db.careTips ++ newts
  count : ∀ u' n', careTipKeyCount db2.careTips u' n' =
    if u' = u ∧ n' ∈ names ∧ careTipKeyCount db.careTips u' n' = 0 then 1
    else careTipKeyCount db.careTips u' n'
  ids_char : ∀ cid ∈ ids, ∃ t ∈ db2.careTips, t.id = cid ∧ t.user = u ∧ t.name ∈ names
  names_char : ∀ n ∈ names, ∃ t ∈ db2.careTips, t.user = u ∧ t.name = n ∧ t.id ∈ ids
  plants : db2.plants =
    db.plants.map (guardUpd pid (fun p => { p with care_tips := foldAttach p.care_tips ids }))
  tagsE : db2.tags = db.tags
  users : db2.users = db.users
  nextP : db2.nextPlantId = db.nextPlantId
  nextT : db2.nextTagId = db.nextTagId

/-- The plant-table state the tag step of `PlantSerializer.update` starts
from: unchanged when the `tags` key is absent, cleared when it is
present. -/
def tagsBase (db : DB) (pid : Int) : Option (List String) → DB
  | none => db
  | some _ => clearTags db pid

/-- The state the care-tip step of `PlantSerializer.update` starts
from. -/
def tipsBase (db : DB) (pid : Int) : Option (List String) → DB
  | none => db
  | some _ => clearCareTips db pid

/-- What submitting the tag name `nm` guarantees, comparing the state
`db0` before the write with the state `dbX` after it: an existing
(owner, name) row is reused and attached with no new row for that key; a
missing one leads to exactly one new row owned by the requester, attached
to the plant. -/
def TagNameOutcome (db0 dbX : DB) (u pid : Int) (nm : String) : Prop :=
  (0 < tagKeyCount db0.tags u nm →
    tagKeyCount dbX.tags u nm = tagKeyCount db0.tags u nm ∧
    ∃ t ∈ db0.tags, t.user = u ∧ t.name = nm ∧ tagAttached dbX pid t.id) ∧
  (tagKeyCount db0.tags u nm = 0 →
    tagKeyCount dbX.tags u nm = 1 ∧
    ∃ t ∈ dbX.tags, ¬ t ∈ db0.tags ∧ t.user = u ∧ t.name = nm ∧ tagAttached dbX pid t.id)

/-- The mirrored guarantee for a submitted care-tip name. -/
def CareTipNameOutcome (db0 dbX : DB) (u pid : Int) (nm : String) : Prop :=
  (0 < careTipKeyCount db0.careTips u nm →
    careTipKeyCount dbX.careTips u nm = careTipKeyCount db0.careTips u nm ∧
    ∃ t ∈ db0.careTips, t.user = u ∧ t.name = nm ∧ careTipAttached dbX pid t.id) ∧
  (careTipKeyCount db0.careTips u nm = 0 →
    careTipKeyCount dbX.careTips u nm = 1 ∧
    ∃ t ∈ dbX.careTips, ¬ t ∈ db0.careTips ∧ t.user = u ∧ t.name = nm ∧
      careTipAttached dbX pid t.id)

/-- The get-or-create guarantee of a whole plant write. -/
def GetOrCreateOutcome (db0 dbF : DB) (u pid : Int) (tnames cnames : List String) : Prop :=
  (∀ nm ∈ tnames, TagNameOutcome db0 dbF u pid nm) ∧
  (∀ nm ∈ cnames, CareTipNameOutcome db0 dbF u pid nm)

/-! ## Claim theorems: owner immutability on update (C6) -/

/-- `q` carries the same owner and scalar fields as `p`. -/
def SameScalarsAs (p q : Plant) : Prop :=
  q.user = p.user ∧ q.title = p.title ∧ q.description = p.description ∧
  q.price = p.price ∧ q.link = p.link


/-! ## Sanity evaluations (temporary) -/

example : pythonInt "12" = some 12 := by decide

example : pythonInt "-3" = some (-3) := by decide

example : pythonInt "abc" = none := by decide

example : pythonInt "" = none := by decide

example : pythonInt " 7 " = some 7 := by decide

example : params_to_ints "1,2" = some [1, 2] := by decide

example : params_to_ints "1,x" = none := by decide

example : normalize_email "Test2@Example.com" = "Test2@example.com" := by decide

example : normalize_email "TEST3@EXAMPLE.com" = "TEST3@example.com" := by decide

example : normalize_email "noatsign" = "noatsign" := by decide

theorem rsplitLast_eq_none {c : Char} {cs : List Char} (h : c ∉ cs) :
    rsplitLast c cs = none := by
  induction cs with
  | nil => rfl
  | cons x rest ih =>
    have hx : ¬ x = c := fun hxc => h (by simp [hxc])
    have hr : c ∉ rest := fun hm => h (List.mem_cons_of_mem _ hm)
    simp [rsplitLast, ih hr, hx]

theorem rsplitLast_append {c : Char} {l d : List Char} (hd : c ∉ d) :
    rsplitLast c (l ++ c :: d) = some (l, d) := by
  induction l with
  | nil => simp [rsplitLast, rsplitLast_eq_none hd]
  | cons x rest ih => simp [rsplitLast, ih]

/-! ## Claim theorems: user management -/

/-- C7: for an email whose domain part contains no further `@` and which
carries no surrounding whitespace, `create_user` stores the email with the
local part verbatim and the domain part lowercased, appending exactly one
user row. -/
theorem c7_create_user_normalizes_domain_only (db : DB) (pw : Option String)
    (lp dom : String) (hlp : ¬ lp = "") (hdom : '@' ∉ dom.data)
    (hws : pyStrip (lp ++ "@" ++ dom).data = (lp ++ "@" ++ dom).data) :
    ∃ db' u, UserManager.create_user db (lp ++ "@" ++ dom) pw = Except.ok (db', u) ∧
      u.email = lp ++ "@" ++ pyLower dom ∧
      db'.users = db.users ++ [u] := by
  have hdata : (lp ++ "@" ++ dom).data = lp.data ++ '@' :: dom.data := by
    simp [String.data_append]
  have hne : ¬ (lp ++ "@" ++ dom) = "" := by
    intro h
    have : (lp ++ "@" ++ dom).data = ("" : String).data := by rw [h]
    rw [hdata] at this
    simp at this
  have hnorm : normalize_email (lp ++ "@" ++ dom) = lp ++ "@" ++ pyLower dom := by
    unfold normalize_email
    rw [hws, hdata, rsplitLast_append hdom]
    apply String.ext
    simp [String.data_append, pyLower]
  refine ⟨{ db with
              users := db.users ++
                [{ id := db.nextUserId, email := normalize_email (lp ++ "@" ++ dom),
                   password := pw }],
              nextUserId := db.nextUserId + 1 },
          { id := db.nextUserId, email := normalize_email (lp ++ "@" ++ dom),
            password := pw }, ?_, ?_, ?_⟩
  · unfold UserManager.create_user
    rw [if_neg hne]
  · simpa using hnorm
  · rfl

/-- Witness for C7 at a concrete input. -/
theorem c7_witness :
    ¬ ("Test2" : String) = "" ∧ '@' ∉ ("Example.com" : String).data ∧
    pyStrip (("Test2" : String) ++ "@" ++ "Example.com").data =
      (("Test2" : String) ++ "@" ++ "Example.com").data ∧
    (∃ db' u, UserManager.create_user {} ("Test2" ++ "@" ++ "Example.com") none =
        Except.ok (db', u) ∧
      u.email = "Test2" ++ "@" ++ pyLower "Example.com" ∧
      db'.users = ({} : DB).users ++ [u]) :=
  ⟨by decide, by decide, by decide,
   c7_create_user_normalizes_domain_only {} none "Test2" "Example.com"
     (by decide) (by decide) (by decide)⟩

/-- C8: `create_user` called with an empty email raises `ValueError`
(the exact message of src/app/core/models.py), and the user store after
the failed call is exactly the store before it. -/
theorem c8_create_user_empty_email_atomic (db : DB) (pw : Option String) :
    UserManager.create_user db "" pw = Except.error "User must have an email." ∧
    UserManager.create_user_store db "" pw = db := by
  constructor
  · rfl
  · rfl

/-! ## Claim theorems: deletion cascades -/

/-- C9: deleting a plant removes only that plant row (the tag, care-tip
and user tables are untouched), while deleting a user removes every plant,
tag and care tip owned by that user and keeps the rows of other users. -/
theorem c9_delete_plant_and_user_cascades (db : DB) (pid uid : Int) :
    ((deletePlant db pid).tags = db.tags ∧
     (deletePlant db pid).careTips = db.careTips ∧
     (deletePlant db pid).users = db.users ∧
     (deletePlant db pid).plants = db.plants.filter (fun p => ¬ p.id = pid)) ∧
    ((∀ p ∈ (deleteUser db uid).plants, ¬ p.user = uid) ∧
     (∀ t ∈ (deleteUser db uid).tags, ¬ t.user = uid) ∧
     (∀ t ∈ (deleteUser db uid).careTips, ¬ t.user = uid) ∧
     (∀ u ∈ (deleteUser db uid).users, ¬ u.id = uid) ∧
     (∀ p ∈ db.plants, ¬ p.user = uid →
        ∃ q ∈ (deleteUser db uid).plants, q.id = p.id ∧ q.user = p.user) ∧
     (∀ t ∈ db.tags, ¬ t.user = uid → t ∈ (deleteUser db uid).tags) ∧
     (∀ t ∈ db.careTips, ¬ t.user = uid → t ∈ (deleteUser db uid).careTips)) := by
  refine ⟨⟨rfl, rfl, rfl, rfl⟩, ?_, ?_, ?_, ?_, ?_, ?_, ?_⟩
  · intro p hp
    simp only [deleteUser, List.mem_map, List.mem_filter] at hp
    obtain ⟨q, ⟨_, hq⟩, rfl⟩ := hp
    simpa using hq
  · intro t ht
    simp only [deleteUser, List.mem_filter] at ht
    simpa using ht.2
  · intro t ht
    simp only [deleteUser, List.mem_filter] at ht
    simpa using ht.2
  · intro u hu
    simp only [deleteUser, List.mem_filter] at hu
    simpa using hu.2
  · intro p hp hpu
    simp only [deleteUser, List.mem_map, List.mem_filter]
    exact ⟨_, ⟨p, ⟨hp, by simpa using hpu⟩, rfl⟩, rfl, rfl⟩
  · intro t ht htu
    simp only [deleteUser, List.mem_filter]
    exact ⟨ht, by simpa using htu⟩
  · intro t ht htu
    simp only [deleteUser, List.mem_filter]
    exact ⟨ht, by simpa using htu⟩

/-! ## Claim theorems: the router (C2) -/

/-- C2 counterexample evaluation: the router of src/app/plant/urls.py
dispatches no resource prefix to the care-tip viewset — in particular not
the care-tips list or detail URLs — although it does dispatch `tags` to
the tag viewset. -/
theorem c2_router_never_reaches_care_tips :
    routerDispatch "care-tips" = none ∧ routerDispatch "caretips" = none ∧
    routerDispatch "tags" = some ViewSetKind.tagViewSet ∧
    (∀ r ∈ router_registrations, ¬ r.2 = ViewSetKind.careTipViewSet) := by
  refine ⟨by decide, by decide, by decide, by decide⟩

/-! ## Claim theorems: malformed filter parameters (C10) -/

/-- C10: a `tags` filter value with a non-integer token makes the plant
queryset construction raise an uncaught `ValueError` from `int(...)`
(modelled by `none` — there is no code path producing a field-level
validation error response), and a non-integer `assigned_only` value does
the same for the tag and care-tip querysets. -/
theorem c10_non_integer_params_raise (db : DB) (u : Int) :
    params_to_ints "abc" = none ∧
    PlantViewSet.get_queryset db u { tags := some "abc", care_tips := none } = none ∧
    assignedOnlyInt (some "yes") = none ∧
    TagViewSet.get_queryset db u { assigned_only := some "yes" } = none ∧
    CareTipViewSet.get_queryset db u { assigned_only := some "yes" } = none := by
  refine ⟨by decide, rfl, by decide, rfl, rfl⟩

/-! ## Queryset membership lemmas -/

theorem mem_orderByIdDescDistinct {l : List Plant} {p : Plant} :
    p ∈ orderByIdDescDistinct l ↔ p ∈ l := by
  unfold orderByIdDescDistinct
  rw [List.mem_dedup]
  exact (List.perm_insertionSort _ l).mem_iff

theorem nodup_orderByIdDescDistinct (l : List Plant) :
    (orderByIdDescDistinct l).Nodup :=
  List.nodup_dedup _

theorem sorted_orderByIdDescDistinct (l : List Plant) :
    List.Sorted (fun a b : Plant => b.id ≤ a.id) (orderByIdDescDistinct l) :=
  List.Pairwise.sublist (List.dedup_sublist _)
    (List.sorted_insertionSort (fun a b : Plant => b.id ≤ a.id) l)

theorem mem_orderByNameDescDistinctTag {l : List Tag} {t : Tag} :
    t ∈ orderByNameDescDistinctTag l ↔ t ∈ l := by
  unfold orderByNameDescDistinctTag
  rw [List.mem_dedup]
  exact (List.perm_insertionSort _ l).mem_iff

theorem mem_orderByNameDescDistinctCareTip {l : List CareTip} {t : CareTip} :
    t ∈ orderByNameDescDistinctCareTip l ↔ t ∈ l := by
  unfold orderByNameDescDistinctCareTip
  rw [List.mem_dedup]
  exact (List.perm_insertionSort _ l).mem_iff

theorem mem_joinTagFilter {ps : List Plant} {ids : List Int} {p : Plant} :
    p ∈ joinTagFilter ps ids ↔ p ∈ ps ∧ ∃ tid ∈ p.tags, tid ∈ ids := by
  simp only [joinTagFilter, List.mem_flatMap, List.mem_map, List.mem_filter,
    decide_eq_true_eq]
  constructor
  · rintro ⟨q, hq, tid, ⟨htid, hin⟩, rfl⟩
    exact ⟨hq, tid, htid, hin⟩
  · rintro ⟨hp, tid, htid, hin⟩
    exact ⟨p, hp, tid, ⟨htid, hin⟩, rfl⟩

theorem mem_joinCareTipFilter {ps : List Plant} {ids : List Int} {p : Plant} :
    p ∈ joinCareTipFilter ps ids ↔ p ∈ ps ∧ ∃ cid ∈ p.care_tips, cid ∈ ids := by
  simp only [joinCareTipFilter, List.mem_flatMap, List.mem_map, List.mem_filter,
    decide_eq_true_eq]
  constructor
  · rintro ⟨q, hq, cid, ⟨hcid, hin⟩, rfl⟩
    exact ⟨hq, cid, hcid, hin⟩
  · rintro ⟨hp, cid, hcid, hin⟩
    exact ⟨p, hp, cid, ⟨hcid, hin⟩, rfl⟩

/-- With no filter parameters the plant queryset is just the user's rows,
ordered and deduplicated. -/
theorem plant_queryset_no_params (db : DB) (u : Int) :
    PlantViewSet.get_queryset db u { tags := none, care_tips := none } =
      some (orderByIdDescDistinct (db.plants.filter (fun p => p.user = u))) := by
  rfl

/-- Any row of any plant list response belongs to the requesting user and
to the plant table. -/
theorem plant_queryset_owner {db : DB} {u : Int} {params : PlantListParams}
    {res : List Plant} (h : PlantViewSet.get_queryset db u params = some res) :
    ∀ p ∈ res, p ∈ db.plants ∧ p.user = u := by
  intro p hp
  unfold PlantViewSet.get_queryset at h
  rcases Option.bind_eq_some.mp h with ⟨q1, h1, h⟩
  rcases Option.bind_eq_some.mp h with ⟨q2, h2, h⟩
  injection h with h
  subst h
  have hm := mem_orderByIdDescDistinct.mp hp
  rw [List.mem_filter, decide_eq_true_eq] at hm
  refine ⟨?_, hm.2⟩
  have hq2 : p ∈ q2 := hm.1
  have hq1 : p ∈ q1 := by
    by_cases hc : truthy params.care_tips = true
    · rw [if_pos hc] at h2
      rcases Option.map_eq_some'.mp h2 with ⟨ids, _, rfl⟩
      exact (mem_joinCareTipFilter.mp hq2).1
    · rw [if_neg hc] at h2
      injection h2 with h2
      rw [h2]; exact hq2
  by_cases ht : truthy params.tags = true
  · rw [if_pos ht] at h1
    rcases Option.map_eq_some'.mp h1 with ⟨ids, _, rfl⟩
    exact (mem_joinTagFilter.mp hq1).1
  · rw [if_neg ht] at h1
    injection h1 with h1
    rw [h1]; exact hq1

/-- Any row of any tag list response belongs to the requesting user and to
the tag table. -/
theorem tag_queryset_owner {db : DB} {u : Int} {params : AttrListParams}
    {res : List Tag} (h : TagViewSet.get_queryset db u params = some res) :
    ∀ t ∈ res, t ∈ db.tags ∧ t.user = u := by
  intro t ht
  unfold TagViewSet.get_queryset at h
  rcases Option.map_eq_some'.mp h with ⟨n, _, h⟩
  subst h
  have hm := mem_orderByNameDescDistinctTag.mp ht
  rw [List.mem_filter, decide_eq_true_eq] at hm
  refine ⟨?_, hm.2⟩
  have hq := hm.1
  by_cases hn : (¬ n = 0 : Prop)
  · rw [if_pos hn] at hq
    rcases List.mem_flatMap.mp hq with ⟨a, ha2, hmem⟩
    rcases List.mem_map.mp hmem with ⟨_, _, rfl⟩
    exact ha2
  · rw [if_neg hn] at hq
    exact hq

/-- Any row of any care-tip list response belongs to the requesting user
and to the care-tip table. -/
theorem care_tip_queryset_owner {db : DB} {u : Int} {params : AttrListParams}
    {res : List CareTip} (h : CareTipViewSet.get_queryset db u params = some res) :
    ∀ t ∈ res, t ∈ db.careTips ∧ t.user = u := by
  intro t ht
  unfold CareTipViewSet.get_queryset at h
  rcases Option.map_eq_some'.mp h with ⟨n, _, h⟩
  subst h
  have hm := mem_orderByNameDescDistinctCareTip.mp ht
  rw [List.mem_filter, decide_eq_true_eq] at hm
  refine ⟨?_, hm.2⟩
  have hq := hm.1
  by_cases hn : (¬ n = 0 : Prop)
  · rw [if_pos hn] at hq
    rcases List.mem_flatMap.mp hq with ⟨a, ha2, hmem⟩
    rcases List.mem_map.mp hmem with ⟨_, _, rfl⟩
    exact ha2
  · rw [if_neg hn] at hq
    exact hq

/-! ## Cross-user object lookup -/

/-- The tag queryset with no query parameters. -/
theorem tag_queryset_no_params (db : DB) (u : Int) :
    TagViewSet.get_queryset db u { assigned_only := none } =
      some (orderByNameDescDistinctTag (db.tags.filter (fun t => t.user = u))) := by
  rfl

/-- The care-tip queryset with no query parameters. -/
theorem care_tip_queryset_no_params (db : DB) (u : Int) :
    CareTipViewSet.get_queryset db u { assigned_only := none } =
      some (orderByNameDescDistinctCareTip (db.careTips.filter (fun t => t.user = u))) := by
  rfl

/-- When no plant row with the requested pk is owned by the requester,
`get_object` raises `Http404`. -/
theorem plant_get_object_notFound {db : DB} {u pk : Int}
    (h : ∀ q ∈ db.plants, q.id = pk → ¬ q.user = u) :
    PlantViewSet.get_object db u { tags := none, care_tips := none } pk =
      DetailResponse.notFound := by
  unfold PlantViewSet.get_object
  rw [plant_queryset_no_params]
  have hf : (orderByIdDescDistinct (db.plants.filter (fun p => p.user = u))).find?
      (fun p => p.id = pk) = none := by
    rw [List.find?_eq_none]
    intro x hx hdec
    have hmem := mem_orderByIdDescDistinct.mp hx
    rw [List.mem_filter, decide_eq_true_eq] at hmem
    rw [decide_eq_true_eq] at hdec
    exact h x hmem.1 hdec hmem.2
  simp [hf]

/-- When no tag row with the requested pk is owned by the requester,
`get_object` raises `Http404`. -/
theorem tag_get_object_notFound {db : DB} {u pk : Int}
    (h : ∀ x ∈ db.tags, x.id = pk → ¬ x.user = u) :
    TagViewSet.get_object db u { assigned_only := none } pk =
      DetailResponse.notFound := by
  unfold TagViewSet.get_object
  rw [tag_queryset_no_params]
  have hf : (orderByNameDescDistinctTag (db.tags.filter (fun t => t.user = u))).find?
      (fun t => t.id = pk) = none := by
    rw [List.find?_eq_none]
    intro x hx hdec
    have hmem := mem_orderByNameDescDistinctTag.mp hx
    rw [List.mem_filter, decide_eq_true_eq] at hmem
    rw [decide_eq_true_eq] at hdec
    exact h x hmem.1 hdec hmem.2
  simp [hf]

/-- When no care-tip row with the requested pk is owned by the requester,
`get_object` raises `Http404`. -/
theorem care_tip_get_object_notFound {db : DB} {u pk : Int}
    (h : ∀ x ∈ db.careTips, x.id = pk → ¬ x.user = u) :
    CareTipViewSet.get_object db u { assigned_only := none } pk =
      DetailResponse.notFound := by
  unfold CareTipViewSet.get_object
  rw [care_tip_queryset_no_params]
  have hf : (orderByNameDescDistinctCareTip (db.careTips.filter (fun t => t.user = u))).find?
      (fun t => t.id = pk) = none := by
    rw [List.find?_eq_none]
    intro x hx hdec
    have hmem := mem_orderByNameDescDistinctCareTip.mp hx
    rw [List.mem_filter, decide_eq_true_eq] at hmem
    rw [decide_eq_true_eq] at hdec
    exact h x hmem.1 hdec hmem.2
  simp [hf]

/-! ## Claim theorems: ownership scoping (C1) -/

/-- C1 counterexample: the tag viewset has no retrieve action, so a
retrieve request by user 1 targeting the tag row owned by user 2 is
answered with method-not-allowed (HTTP 405), not with the not-found
response the claim asserts for every retrieve on a cross-user row. -/
theorem c1_counterexample_tag_retrieve_is_405 :
    otherTag ∈ sampleDB.tags ∧ ¬ otherTag.user = 1 ∧
    TagViewSet.retrieve sampleDB 1 { assigned_only := none } otherTag.id =
      DetailResponse.methodNotAllowed ∧
    ¬ TagViewSet.retrieve sampleDB 1 { assigned_only := none } otherTag.id =
      DetailResponse.notFound := by
  refine ⟨by decide, by decide, rfl, by decide⟩

/-- C1 (amended): for rows owned by a different user, a plant retrieve,
and every update or delete on a plant, tag or care tip, is answered
not-found (never forbidden) and leaves the database unchanged — tag and
care-tip viewsets expose no retrieve action at all (a detail GET is
method-not-allowed for every row) — and every list response contains only
rows owned by the requester. -/
theorem c1_cross_user_rows_look_absent (db : DB) (u : Int)
    (p : Plant) (hp : p ∈ db.plants) (hpu : ¬ p.user = u)
    (hpid : ∀ q ∈ db.plants, q.id = p.id → ¬ q.user = u)
    (t : Tag) (ht : t ∈ db.tags) (htu : ¬ t.user = u)
    (htid : ∀ x ∈ db.tags, x.id = t.id → ¬ x.user = u)
    (c : CareTip) (hc : c ∈ db.careTips) (hcu : ¬ c.user = u)
    (hcid : ∀ x ∈ db.careTips, x.id = c.id → ¬ x.user = u) :
    PlantViewSet.retrieve db u { tags := none, care_tips := none } p.id =
      DetailResponse.notFound ∧
    PlantViewSet.destroy db u { tags := none, care_tips := none } p.id =
      (DetailResponse.notFound, db) ∧
    (∀ b, PlantViewSet.partial_update db u { tags := none, care_tips := none } p.id b =
      (DetailResponse.notFound, db)) ∧
    TagViewSet.destroy db u { assigned_only := none } t.id =
      (DetailResponse.notFound, db) ∧
    (∀ b, TagViewSet.partial_update db u { assigned_only := none } t.id b =
      (DetailResponse.notFound, db)) ∧
    TagViewSet.retrieve db u { assigned_only := none } t.id =
      DetailResponse.methodNotAllowed ∧
    CareTipViewSet.destroy db u { assigned_only := none } c.id =
      (DetailResponse.notFound, db) ∧
    (∀ b, CareTipViewSet.partial_update db u { assigned_only := none } c.id b =
      (DetailResponse.notFound, db)) ∧
    CareTipViewSet.retrieve db u { assigned_only := none } c.id =
      DetailResponse.methodNotAllowed ∧
    (∀ params res, PlantViewSet.get_queryset db u params = some res →
      ∀ q ∈ res, q.user = u) ∧
    (∀ params res, TagViewSet.get_queryset db u params = some res →
      ∀ x ∈ res, x.user = u) ∧
    (∀ params res, CareTipViewSet.get_queryset db u params = some res →
      ∀ x ∈ res, x.user = u) := by
  have hpo := plant_get_object_notFound hpid
  have hto := tag_get_object_notFound htid
  have hco := care_tip_get_object_notFound hcid
  refine ⟨hpo, ?_, ?_, ?_, ?_, rfl, ?_, ?_, rfl, ?_, ?_, ?_⟩
  · unfold PlantViewSet.destroy
    rw [hpo]
  · intro b
    unfold PlantViewSet.partial_update
    rw [hpo]
  · unfold TagViewSet.destroy
    rw [hto]
  · intro b
    unfold TagViewSet.partial_update
    rw [hto]
  · unfold CareTipViewSet.destroy
    rw [hco]
  · intro b
    unfold CareTipViewSet.partial_update
    rw [hco]
  · intro params res hres q hq
    exact (plant_queryset_owner hres q hq).2
  · intro params res hres x hx
    exact (tag_queryset_owner hres x hx).2
  · intro params res hres x hx
    exact (care_tip_queryset_owner hres x hx).2

/-- Witness for the amended C1 at the concrete sample database: user 1
probing the plant, tag and care tip owned by user 2. -/
theorem c1_witness :
    PlantViewSet.retrieve sampleDB 1 { tags := none, care_tips := none } otherPlant.id =
      DetailResponse.notFound ∧
    PlantViewSet.destroy sampleDB 1 { tags := none, care_tips := none } otherPlant.id =
      (DetailResponse.notFound, sampleDB) ∧
    (∀ b, PlantViewSet.partial_update sampleDB 1 { tags := none, care_tips := none }
      otherPlant.id b = (DetailResponse.notFound, sampleDB)) ∧
    TagViewSet.destroy sampleDB 1 { assigned_only := none } otherTag.id =
      (DetailResponse.notFound, sampleDB) ∧
    (∀ b, TagViewSet.partial_update sampleDB 1 { assigned_only := none } otherTag.id b =
      (DetailResponse.notFound, sampleDB)) ∧
    TagViewSet.retrieve sampleDB 1 { assigned_only := none } otherTag.id =
      DetailResponse.methodNotAllowed ∧
    CareTipViewSet.destroy sampleDB 1 { assigned_only := none } otherTip.id =
      (DetailResponse.notFound, sampleDB) ∧
    (∀ b, CareTipViewSet.partial_update sampleDB 1 { assigned_only := none } otherTip.id b =
      (DetailResponse.notFound, sampleDB)) ∧
    CareTipViewSet.retrieve sampleDB 1 { assigned_only := none } otherTip.id =
      DetailResponse.methodNotAllowed ∧
    (∀ params res, PlantViewSet.get_queryset sampleDB 1 params = some res →
      ∀ q ∈ res, q.user = 1) ∧
    (∀ params res, TagViewSet.get_queryset sampleDB 1 params = some res →
      ∀ x ∈ res, x.user = 1) ∧
    (∀ params res, CareTipViewSet.get_queryset sampleDB 1 params = some res →
      ∀ x ∈ res, x.user = 1) :=
  c1_cross_user_rows_look_absent sampleDB 1
    otherPlant (by decide) (by decide) (by decide)
    otherTag (by decide) (by decide) (by decide)
    otherTip (by decide) (by decide) (by decide)

/-! ## Claim theorems: plant list filtering (C3) -/

/-- The plant queryset with a truthy, parseable `tags` parameter only. -/
theorem plant_queryset_tags_only (db : DB) (u : Int) (s : String) (ids : List Int)
    (hs : ¬ s = "") (hp : params_to_ints s = some ids) :
    PlantViewSet.get_queryset db u { tags := some s, care_tips := none } =
      some (orderByIdDescDistinct
        ((joinTagFilter db.plants ids).filter (fun p => p.user = u))) := by
  have ht : truthy (some s) = true := by simp [truthy, hs]
  unfold PlantViewSet.get_queryset
  simp [ht, hp, truthy, hs]

/-- The plant queryset with truthy, parseable `tags` and `care_tips`
parameters: the second join applies to the result of the first. -/
theorem plant_queryset_both_filters (db : DB) (u : Int) (s c : String)
    (ids cds : List Int) (hs : ¬ s = "") (hps : params_to_ints s = some ids)
    (hc : ¬ c = "") (hpc : params_to_ints c = some cds) :
    PlantViewSet.get_queryset db u { tags := some s, care_tips := some c } =
      some (orderByIdDescDistinct
        ((joinCareTipFilter (joinTagFilter db.plants ids) cds).filter
          (fun p => p.user = u))) := by
  have ht : truthy (some s) = true := by simp [truthy, hs]
  have ht2 : truthy (some c) = true := by simp [truthy, hc]
  unfold PlantViewSet.get_queryset
  simp [ht, ht2, hps, hpc, truthy, hs, hc]

/-- C3: filtering the plant list by comma-separated tag ids returns
exactly the requesting user's plants carrying at least one listed tag,
without duplicates and ordered by descending id; supplying both the tag
and the care-tip filter additionally requires at least one listed care-tip
id (conjunction across the two filters). -/
theorem c3_list_filtering (db : DB) (u : Int) (s c : String) (ids cds : List Int)
    (hs : ¬ s = "") (hps : params_to_ints s = some ids)
    (hc : ¬ c = "") (hpc : params_to_ints c = some cds) :
    (∃ res, PlantViewSet.get_queryset db u { tags := some s, care_tips := none } =
        some res ∧
      (∀ p, p ∈ res ↔ p ∈ db.plants ∧ p.user = u ∧ ∃ tid ∈ p.tags, tid ∈ ids) ∧
      res.Nodup ∧ List.Sorted (fun a b : Plant => b.id ≤ a.id) res) ∧
    (∃ res, PlantViewSet.get_queryset db u { tags := some s, care_tips := some c } =
        some res ∧
      (∀ p, p ∈ res ↔ p ∈ db.plants ∧ p.user = u ∧ (∃ tid ∈ p.tags, tid ∈ ids) ∧
        ∃ cid ∈ p.care_tips, cid ∈ cds) ∧
      res.Nodup ∧ List.Sorted (fun a b : Plant => b.id ≤ a.id) res) := by
  constructor
  · refine ⟨_, plant_queryset_tags_only db u s ids hs hps, ?_,
      nodup_orderByIdDescDistinct _, sorted_orderByIdDescDistinct _⟩
    intro p
    rw [mem_orderByIdDescDistinct, List.mem_filter, decide_eq_true_eq, mem_joinTagFilter]
    constructor
    · rintro ⟨⟨hmem, hex⟩, huser⟩
      exact ⟨hmem, huser, hex⟩
    · rintro ⟨hmem, huser, hex⟩
      exact ⟨⟨hmem, hex⟩, huser⟩
  · refine ⟨_, plant_queryset_both_filters db u s c ids cds hs hps hc hpc, ?_,
      nodup_orderByIdDescDistinct _, sorted_orderByIdDescDistinct _⟩
    intro p
    rw [mem_orderByIdDescDistinct, List.mem_filter, decide_eq_true_eq,
      mem_joinCareTipFilter, mem_joinTagFilter]
    constructor
    · rintro ⟨⟨⟨hmem, hext⟩, hexc⟩, huser⟩
      exact ⟨hmem, huser, hext, hexc⟩
    · rintro ⟨hmem, huser, hext, hexc⟩
      exact ⟨⟨⟨hmem, hext⟩, hexc⟩, huser⟩

/-- Witness for C3 at the concrete sample database: user 1 filtering by
tag ids 20,22 and care-tip id 30. -/
theorem c3_witness :
    (∃ res, PlantViewSet.get_queryset sampleDB 1 { tags := some "20,22", care_tips := none } =
        some res ∧
      (∀ p, p ∈ res ↔ p ∈ sampleDB.plants ∧ p.user = 1 ∧ ∃ tid ∈ p.tags, tid ∈ [20, 22]) ∧
      res.Nodup ∧ List.Sorted (fun a b : Plant => b.id ≤ a.id) res) ∧
    (∃ res, PlantViewSet.get_queryset sampleDB 1
        { tags := some "20,22", care_tips := some "30" } = some res ∧
      (∀ p, p ∈ res ↔ p ∈ sampleDB.plants ∧ p.user = 1 ∧ (∃ tid ∈ p.tags, tid ∈ [20, 22]) ∧
        ∃ cid ∈ p.care_tips, cid ∈ [30]) ∧
      res.Nodup ∧ List.Sorted (fun a b : Plant => b.id ≤ a.id) res) :=
  c3_list_filtering sampleDB 1 "20,22" "30" [20, 22] [30]
    (by decide) (by decide) (by decide) (by decide)

theorem mem_foldAttach {x : Int} : ∀ {ids acc : List Int},
    x ∈ foldAttach acc ids ↔ x ∈ acc ∨ x ∈ ids := by
  intro ids
  induction ids with
  | nil => intro acc; simp [foldAttach]
  | cons i rest ih =>
    intro acc
    have hstep : foldAttach acc (i :: rest) =
        foldAttach (if i ∈ acc then acc else acc ++ [i]) rest := rfl
    rw [hstep, ih]
    by_cases hi : i ∈ acc
    · simp only [if_pos hi, List.mem_cons]
      constructor
      · rintro (h | h)
        · exact Or.inl h
        · exact Or.inr (Or.inr h)
      · rintro (h | h | h)
        · exact Or.inl h
        · exact Or.inl (by rw [h]; exact hi)
        · exact Or.inr h
    · simp only [if_neg hi, List.mem_append, List.mem_singleton, List.mem_cons]
      tauto

theorem map_guardUpd_comp (l : List Plant) (pid : Int) (f g : Plant → Plant)
    (hf : ∀ p, (f p).id = p.id) :
    (l.map (guardUpd pid f)).map (guardUpd pid g) =
      l.map (guardUpd pid (fun p => g (f p))) := by
  rw [List.map_map]
  apply List.map_congr_left
  intro p _
  show guardUpd pid g (guardUpd pid f p) = guardUpd pid (fun q => g (f q)) p
  unfold guardUpd
  by_cases h : p.id = pid
  · rw [if_pos h, if_pos h, if_pos (by rw [hf p]; exact h)]
  · rw [if_neg h, if_neg h, if_neg h]

theorem map_guardUpd_self (l : List Plant) (pid : Int) (f : Plant → Plant)
    (hf : ∀ p, f p = p) : l.map (guardUpd pid f) = l := by
  have h : ∀ p ∈ l, guardUpd pid f p = p := by
    intro p _
    unfold guardUpd
    rw [hf p]
    exact ite_self p
  rw [List.map_congr_left h]
  simp

theorem tagKeyCount_le_one {ts : List Tag} (h : TagKeysNodup ts) (u : Int) (nm : String) :
    tagKeyCount ts u nm ≤ 1 := by
  induction ts with
  | nil => simp [tagKeyCount]
  | cons t rest ih =>
    rcases List.nodup_cons.mp h with ⟨hmem, hrest⟩
    unfold tagKeyCount at ih ⊢
    rw [List.filter_cons]
    by_cases hp : (t.user = u ∧ t.name = nm)
    · rw [if_pos (by simpa using hp)]
      have hempty : rest.filter (fun x => decide (x.user = u ∧ x.name = nm)) = [] := by
        rw [List.filter_eq_nil_iff]
        intro x hx hdec
        rw [decide_eq_true_eq] at hdec
        apply hmem
        apply List.mem_map.mpr
        refine ⟨x, hx, ?_⟩
        show (x.user, x.name) = (t.user, t.name)
        rw [hdec.1, hdec.2, hp.1, hp.2]
      rw [hempty]
      simp
    · rw [if_neg (by simpa using hp)]
      exact ih hrest

theorem careTipKeyCount_le_one {ts : List CareTip} (h : CareTipKeysNodup ts)
    (u : Int) (nm : String) : careTipKeyCount ts u nm ≤ 1 := by
  induction ts with
  | nil => simp [careTipKeyCount]
  | cons t rest ih =>
    rcases List.nodup_cons.mp h with ⟨hmem, hrest⟩
    unfold careTipKeyCount at ih ⊢
    rw [List.filter_cons]
    by_cases hp : (t.user = u ∧ t.name = nm)
    · rw [if_pos (by simpa using hp)]
      have hempty : rest.filter (fun x => decide (x.user = u ∧ x.name = nm)) = [] := by
        rw [List.filter_eq_nil_iff]
        intro x hx hdec
        rw [decide_eq_true_eq] at hdec
        apply hmem
        apply List.mem_map.mpr
        refine ⟨x, hx, ?_⟩
        show (x.user, x.name) = (t.user, t.name)
        rw [hdec.1, hdec.2, hp.1, hp.2]
      rw [hempty]
      simp
    · rw [if_neg (by simpa using hp)]
      exact ih hrest

theorem tagKeyCount_append_single (ts : List Tag) (t : Tag) (u : Int) (nm : String) :
    tagKeyCount (ts ++ [t]) u nm =
      tagKeyCount ts u nm + (if t.user = u ∧ t.name = nm then 1 else 0) := by
  unfold tagKeyCount
  rw [List.filter_append, List.length_append]
  congr 1
  by_cases hp : (t.user = u ∧ t.name = nm)
  · rw [if_pos hp]
    simp [hp]
  · rw [if_neg hp]
    simp only [List.filter_cons, List.filter_nil]
    rw [if_neg (by simpa using hp)]
    rfl

theorem careTipKeyCount_append_single (ts : List CareTip) (t : CareTip)
    (u : Int) (nm : String) :
    careTipKeyCount (ts ++ [t]) u nm =
      careTipKeyCount ts u nm + (if t.user = u ∧ t.name = nm then 1 else 0) := by
  unfold careTipKeyCount
  rw [List.filter_append, List.length_append]
  congr 1
  by_cases hp : (t.user = u ∧ t.name = nm)
  · rw [if_pos hp]
    simp [hp]
  · rw [if_neg hp]
    simp only [List.filter_cons, List.filter_nil]
    rw [if_neg (by simpa using hp)]
    rfl

theorem tagKeyCount_pos_of_mem {ts : List Tag} {t : Tag} (ht : t ∈ ts) {u : Int}
    {nm : String} (hu : t.user = u) (hn : t.name = nm) :
    0 < tagKeyCount ts u nm := by
  unfold tagKeyCount
  have : t ∈ ts.filter (fun x => x.user = u ∧ x.name = nm) :=
    List.mem_filter.mpr ⟨ht, by simp [hu, hn]⟩
  exact List.length_pos.mpr (List.ne_nil_of_mem this)

theorem careTipKeyCount_pos_of_mem {ts : List CareTip} {t : CareTip} (ht : t ∈ ts)
    {u : Int} {nm : String} (hu : t.user = u) (hn : t.name = nm) :
    0 < careTipKeyCount ts u nm := by
  unfold careTipKeyCount
  have : t ∈ ts.filter (fun x => x.user = u ∧ x.name = nm) :=
    List.mem_filter.mpr ⟨ht, by simp [hu, hn]⟩
  exact List.length_pos.mpr (List.ne_nil_of_mem this)

theorem tagKeyCount_one_unique {ts : List Tag} {u : Int} {nm : String}
    (h : tagKeyCount ts u nm = 1) {a b : Tag} (ha : a ∈ ts)
    (hau : a.user = u) (han : a.name = nm) (hb : b ∈ ts)
    (hbu : b.user = u) (hbn : b.name = nm) : a = b := by
  unfold tagKeyCount at h
  rcases List.length_eq_one.mp h with ⟨x, hx⟩
  have ha2 : a ∈ ts.filter (fun t => t.user = u ∧ t.name = nm) :=
    List.mem_filter.mpr ⟨ha, by simp [hau, han]⟩
  have hb2 : b ∈ ts.filter (fun t => t.user = u ∧ t.name = nm) :=
    List.mem_filter.mpr ⟨hb, by simp [hbu, hbn]⟩
  rw [hx, List.mem_singleton] at ha2 hb2
  rw [ha2, hb2]

theorem careTipKeyCount_one_unique {ts : List CareTip} {u : Int} {nm : String}
    (h : careTipKeyCount ts u nm = 1) {a b : CareTip} (ha : a ∈ ts)
    (hau : a.user = u) (han : a.name = nm) (hb : b ∈ ts)
    (hbu : b.user = u) (hbn : b.name = nm) : a = b := by
  unfold careTipKeyCount at h
  rcases List.length_eq_one.mp h with ⟨x, hx⟩
  have ha2 : a ∈ ts.filter (fun t => t.user = u ∧ t.name = nm) :=
    List.mem_filter.mpr ⟨ha, by simp [hau, han]⟩
  have hb2 : b ∈ ts.filter (fun t => t.user = u ∧ t.name = nm) :=
    List.mem_filter.mpr ⟨hb, by simp [hbu, hbn]⟩
  rw [hx, List.mem_singleton] at ha2 hb2
  rw [ha2, hb2]

theorem attachTag_plants (db : DB) (pid tid : Int) :
    (attachTag db pid tid).plants =
      db.plants.map (guardUpd pid (fun p => { p with tags := foldAttach p.tags [tid] })) :=
  rfl

theorem attachCareTip_plants (db : DB) (pid cid : Int) :
    (attachCareTip db pid cid).plants =
      db.plants.map
        (guardUpd pid (fun p => { p with care_tips := foldAttach p.care_tips [cid] })) :=
  rfl

theorem getOrCreateTag_fresh {db : DB} {u : Int} {nm : String}
    (h : tagKeyCount db.tags u nm = 0) :
    getOrCreateTag db u nm = some (insertTag db u nm, newTag db u nm) := by
  unfold tagKeyCount at h
  have hf := List.length_eq_zero.mp h
  unfold getOrCreateTag
  rw [hf]
  rfl

theorem getOrCreateTag_found {db : DB} {u : Int} {nm : String}
    (h : tagKeyCount db.tags u nm = 1) :
    ∃ t, getOrCreateTag db u nm = some (db, t) ∧ t ∈ db.tags ∧
      t.user = u ∧ t.name = nm := by
  unfold tagKeyCount at h
  rcases List.length_eq_one.mp h with ⟨t, hft⟩
  have htf : t ∈ db.tags.filter (fun x => decide (x.user = u ∧ x.name = nm)) := by
    rw [hft]
    exact List.mem_singleton_self t
  rcases List.mem_filter.mp htf with ⟨hmem, hdec⟩
  rw [decide_eq_true_eq] at hdec
  refine ⟨t, ?_, hmem, hdec.1, hdec.2⟩
  unfold getOrCreateTag
  rw [hft]

theorem getOrCreateCareTip_fresh {db : DB} {u : Int} {nm : String}
    (h : careTipKeyCount db.careTips u nm = 0) :
    getOrCreateCareTip db u nm = some (insertCareTip db u nm, newCareTip db u nm) := by
  unfold careTipKeyCount at h
  have hf := List.length_eq_zero.mp h
  unfold getOrCreateCareTip
  rw [hf]
  rfl

theorem getOrCreateCareTip_found {db : DB} {u : Int} {nm : String}
    (h : careTipKeyCount db.careTips u nm = 1) :
    ∃ t, getOrCreateCareTip db u nm = some (db, t) ∧ t ∈ db.careTips ∧
      t.user = u ∧ t.name = nm := by
  unfold careTipKeyCount at h
  rcases List.length_eq_one.mp h with ⟨t, hft⟩
  have htf : t ∈ db.careTips.filter (fun x => decide (x.user = u ∧ x.name = nm)) := by
    rw [hft]
    exact List.mem_singleton_self t
  rcases List.mem_filter.mp htf with ⟨hmem, hdec⟩
  rw [decide_eq_true_eq] at hdec
  refine ⟨t, ?_, hmem, hdec.1, hdec.2⟩
  unfold getOrCreateCareTip
  rw [hft]

theorem tag_key_not_mem_of_count_zero {ts : List Tag} {u : Int} {nm : String}
    (h : tagKeyCount ts u nm = 0) :
    (u, nm) ∉ ts.map (fun t => (t.user, t.name)) := by
  intro hmem
  rcases List.mem_map.mp hmem with ⟨t, htmem, heq⟩
  have h1 : t.user = u := congrArg Prod.fst heq
  have h2 : t.name = nm := congrArg Prod.snd heq
  have := tagKeyCount_pos_of_mem htmem h1 h2
  omega

theorem care_tip_key_not_mem_of_count_zero {ts : List CareTip} {u : Int} {nm : String}
    (h : careTipKeyCount ts u nm = 0) :
    (u, nm) ∉ ts.map (fun t => (t.user, t.name)) := by
  intro hmem
  rcases List.mem_map.mp hmem with ⟨t, htmem, heq⟩
  have h1 : t.user = u := congrArg Prod.fst heq
  have h2 : t.name = nm := congrArg Prod.snd heq
  have := careTipKeyCount_pos_of_mem htmem h1 h2
  omega

theorem get_or_create_tags_spec (names : List String) :
    ∀ (db : DB) (u pid : Int), TagKeysNodup db.tags →
      ∃ db2 ids, get_or_create_tags db u names pid = some db2 ∧
        TagFoldSpec db u names pid db2 ids := by
  induction names with
  | nil =>
    intro db u pid hnd
    refine ⟨db, [], rfl, ?_⟩
    refine ⟨hnd, ⟨[], by simp⟩, ?_, ?_, ?_, ?_, rfl, rfl, rfl, rfl⟩
    · intro u' n'
      simp
    · intro tid h
      simp at h
    · intro n h
      simp at h
    · exact (map_guardUpd_self _ _ _ (fun p => rfl)).symm
  | cons nm rest ih =>
    intro db u pid hnd
    have hle := tagKeyCount_le_one hnd u nm
    have hcases : tagKeyCount db.tags u nm = 0 ∨ tagKeyCount db.tags u nm = 1 := by omega
    rcases hcases with hcnt | hcnt
    · -- the name is fresh for this user: a row is inserted
      have hstep := getOrCreateTag_fresh hcnt
      have htagsA : (attachTag (insertTag db u nm) pid (newTag db u nm).id).tags =
          db.tags ++ [newTag db u nm] := rfl
      have hndA : TagKeysNodup (attachTag (insertTag db u nm) pid (newTag db u nm).id).tags := by
        unfold TagKeysNodup
        rw [htagsA, List.map_append]
        refine List.Nodup.append hnd (List.nodup_singleton _) ?_
        intro a ha hb
        simp only [List.map_cons, List.map_nil, List.mem_singleton] at hb
        subst hb
        exact tag_key_not_mem_of_count_zero hcnt ha
      rcases ih (attachTag (insertTag db u nm) pid (newTag db u nm).id) u pid hndA with
        ⟨db2, ids, heq, hspec⟩
      refine ⟨db2, (newTag db u nm).id :: ids, ?_, ?_⟩
      · unfold get_or_create_tags
        rw [hstep]
        exact heq
      · obtain ⟨newts, hext⟩ := hspec.ext
        rw [htagsA] at hext
        have hextA : db2.tags = db.tags ++ ([newTag db u nm] ++ newts) := by
          rw [hext, List.append_assoc]
        have hnewmem : newTag db u nm ∈ db2.tags := by
          rw [hextA]
          exact List.mem_append_right _ (List.mem_append_left _ (List.mem_singleton_self _))
        have hA : ∀ u2 n2,
            tagKeyCount (attachTag (insertTag db u nm) pid (newTag db u nm).id).tags u2 n2 =
              tagKeyCount db.tags u2 n2 + (if u = u2 ∧ nm = n2 then 1 else 0) := by
          intro u2 n2
          rw [htagsA, tagKeyCount_append_single]
          rfl
        refine ⟨hspec.nodup, ⟨[newTag db u nm] ++ newts, hextA⟩, ?_, ?_, ?_, ?_, ?_, ?_, ?_, ?_⟩
        · intro u' n'
          have hc := hspec.count u' n'
          rw [hA u' n'] at hc
          rw [hc]
          by_cases hu : u' = u
          · subst hu
            by_cases hn : n' = nm
            · subst hn
              simp [hcnt, List.mem_cons]
            · simp [hn, List.mem_cons, Ne.symm hn]
          · simp [hu, Ne.symm hu]
        · intro tid htid
          rcases List.mem_cons.mp htid with rfl | htid
          · exact ⟨newTag db u nm, hnewmem, rfl, rfl, List.mem_cons_self _ _⟩
          · rcases hspec.ids_char tid htid with ⟨t, a, b, c, d⟩
            exact ⟨t, a, b, c, List.mem_cons_of_mem _ d⟩
        · intro n hn
          rcases List.mem_cons.mp hn with heq | hn
          · exact ⟨newTag db u nm, hnewmem, rfl, heq.symm, List.mem_cons_self _ _⟩
          · rcases hspec.names_char n hn with ⟨t, a, b, c, d⟩
            exact ⟨t, a, b, c, List.mem_cons_of_mem _ d⟩
        · have hplA : (attachTag (insertTag db u nm) pid (newTag db u nm).id).plants =
              db.plants.map
                (guardUpd pid (fun p => { p with tags := foldAttach p.tags [(newTag db u nm).id] })) :=
            attachTag_plants (insertTag db u nm) pid (newTag db u nm).id
          rw [hspec.plants, hplA,
            map_guardUpd_comp db.plants pid
              (fun p => { p with tags := foldAttach p.tags [(newTag db u nm).id] })
              (fun p => { p with tags := foldAttach p.tags ids })
              (fun p => rfl)]
          rfl
        · rw [hspec.tips]
          rfl
        · rw [hspec.users]
          rfl
        · rw [hspec.nextP]
          rfl
        · rw [hspec.nextC]
          rfl
    · -- the name already exists: the row is reused, nothing is inserted
      rcases getOrCreateTag_found hcnt with ⟨t0, hstep, htmem, htu, htn⟩
      have hndA : TagKeysNodup (attachTag db pid t0.id).tags := hnd
      rcases ih (attachTag db pid t0.id) u pid hndA with ⟨db2, ids, heq, hspec⟩
      refine ⟨db2, t0.id :: ids, ?_, ?_⟩
      · unfold get_or_create_tags
        rw [hstep]
        exact heq
      · obtain ⟨newts, hext⟩ := hspec.ext
        have hextA : db2.tags = db.tags ++ newts := hext
        have ht0mem : t0 ∈ db2.tags := by
          rw [hextA]
          exact List.mem_append_left _ htmem
        have hA : ∀ u2 n2, tagKeyCount (attachTag db pid t0.id).tags u2 n2 =
            tagKeyCount db.tags u2 n2 := fun _ _ => rfl
        refine ⟨hspec.nodup, ⟨newts, hextA⟩, ?_, ?_, ?_, ?_, ?_, ?_, ?_, ?_⟩
        · intro u' n'
          have hc := hspec.count u' n'
          rw [hA u' n'] at hc
          rw [hc]
          by_cases hu : u' = u
          · subst hu
            by_cases hn : n' = nm
            · subst hn
              simp [hcnt, List.mem_cons]
            · simp [hn, List.mem_cons]
          · simp [hu]
        · intro tid htid
          rcases List.mem_cons.mp htid with rfl | htid
          · refine ⟨t0, ht0mem, rfl, htu, ?_⟩
            rw [htn]
            exact List.mem_cons_self _ _
          · rcases hspec.ids_char tid htid with ⟨t, a, b, c, d⟩
            exact ⟨t, a, b, c, List.mem_cons_of_mem _ d⟩
        · intro n hn
          rcases List.mem_cons.mp hn with heq | hn
          · exact ⟨t0, ht0mem, htu, htn.trans heq.symm, List.mem_cons_self _ _⟩
          · rcases hspec.names_char n hn with ⟨t, a, b, c, d⟩
            exact ⟨t, a, b, c, List.mem_cons_of_mem _ d⟩
        · have hplA : (attachTag db pid t0.id).plants =
              db.plants.map
                (guardUpd pid (fun p => { p with tags := foldAttach p.tags [t0.id] })) :=
            attachTag_plants db pid t0.id
          rw [hspec.plants, hplA,
            map_guardUpd_comp db.plants pid
              (fun p => { p with tags := foldAttach p.tags [t0.id] })
              (fun p => { p with tags := foldAttach p.tags ids })
              (fun p => rfl)]
          rfl
        · rw [hspec.tips]
          rfl
        · rw [hspec.users]
          rfl
        · rw [hspec.nextP]
          rfl
        · rw [hspec.nextC]
          rfl

theorem get_or_create_care_tips_spec (names : List String) :
    ∀ (db : DB) (u pid : Int), CareTipKeysNodup db.careTips →
      ∃ db2 ids, get_or_create_care_tips db u names pid = some db2 ∧
        CareTipFoldSpec db u names pid db2 ids := by
  induction names with
  | nil =>
    intro db u pid hnd
    refine ⟨db, [], rfl, ?_⟩
    refine ⟨hnd, ⟨[], by simp⟩, ?_, ?_, ?_, ?_, rfl, rfl, rfl, rfl⟩
    · intro u' n'
      simp
    · intro cid h
      simp at h
    · intro n h
      simp at h
    · exact (map_guardUpd_self _ _ _ (fun p => rfl)).symm
  | cons nm rest ih =>
    intro db u pid hnd
    have hle := careTipKeyCount_le_one hnd u nm
    have hcases : careTipKeyCount db.careTips u nm = 0 ∨ careTipKeyCount db.careTips u nm = 1 := by
      omega
    rcases hcases with hcnt | hcnt
    · -- the name is fresh for this user: a row is inserted
      have hstep := getOrCreateCareTip_fresh hcnt
      have htipsA : (attachCareTip (insertCareTip db u nm) pid (newCareTip db u nm).id).careTips =
          db.careTips ++ [newCareTip db u nm] := rfl
      have hndA : CareTipKeysNodup
          (attachCareTip (insertCareTip db u nm) pid (newCareTip db u nm).id).careTips := by
        unfold CareTipKeysNodup
        rw [htipsA, List.map_append]
        refine List.Nodup.append hnd (List.nodup_singleton _) ?_
        intro a ha hb
        simp only [List.map_cons, List.map_nil, List.mem_singleton] at hb
        subst hb
        exact care_tip_key_not_mem_of_count_zero hcnt ha
      rcases ih (attachCareTip (insertCareTip db u nm) pid (newCareTip db u nm).id) u pid hndA with
        ⟨db2, ids, heq, hspec⟩
      refine ⟨db2, (newCareTip db u nm).id :: ids, ?_, ?_⟩
      · unfold get_or_create_care_tips
        rw [hstep]
        exact heq
      · obtain ⟨newts, hext⟩ := hspec.ext
        rw [htipsA] at hext
        have hextA : db2.careTips = db.careTips ++ ([newCareTip db u nm] ++ newts) := by
          rw [hext, List.append_assoc]
        have hnewmem : newCareTip db u nm ∈ db2.careTips := by
          rw [hextA]
          exact List.mem_append_right _ (List.mem_append_left _ (List.mem_singleton_self _))
        have hA : ∀ u2 n2,
            careTipKeyCount
              (attachCareTip (insertCareTip db u nm) pid (newCareTip db u nm).id).careTips u2 n2 =
              careTipKeyCount db.careTips u2 n2 + (if u = u2 ∧ nm = n2 then 1 else 0) := by
          intro u2 n2
          rw [htipsA, careTipKeyCount_append_single]
          rfl
        refine ⟨hspec.nodup, ⟨[newCareTip db u nm] ++ newts, hextA⟩, ?_, ?_, ?_, ?_, ?_, ?_, ?_, ?_⟩
        · intro u' n'
          have hc := hspec.count u' n'
          rw [hA u' n'] at hc
          rw [hc]
          by_cases hu : u' = u
          · subst hu
            by_cases hn : n' = nm
            · subst hn
              simp [hcnt, List.mem_cons]
            · simp [hn, List.mem_cons, Ne.symm hn]
          · simp [hu, Ne.symm hu]
        · intro cid hcid
          rcases List.mem_cons.mp hcid with rfl | hcid
          · exact ⟨newCareTip db u nm, hnewmem, rfl, rfl, List.mem_cons_self _ _⟩
          · rcases hspec.ids_char cid hcid with ⟨t, a, b, c, d⟩
            exact ⟨t, a, b, c, List.mem_cons_of_mem _ d⟩
        · intro n hn
          rcases List.mem_cons.mp hn with heq | hn
          · exact ⟨newCareTip db u nm, hnewmem, rfl, heq.symm, List.mem_cons_self _ _⟩
          · rcases hspec.names_char n hn with ⟨t, a, b, c, d⟩
            exact ⟨t, a, b, c, List.mem_cons_of_mem _ d⟩
        · have hplA : (attachCareTip (insertCareTip db u nm) pid (newCareTip db u nm).id).plants =
              db.plants.map
                (guardUpd pid
                  (fun p => { p with care_tips := foldAttach p.care_tips [(newCareTip db u nm).id] })) :=
            attachCareTip_plants (insertCareTip db u nm) pid (newCareTip db u nm).id
          rw [hspec.plants, hplA,
            map_guardUpd_comp db.plants pid
              (fun p => { p with care_tips := foldAttach p.care_tips [(newCareTip db u nm).id] })
              (fun p => { p with care_tips := foldAttach p.care_tips ids })
              (fun p => rfl)]
          rfl
        · rw [hspec.tagsE]
          rfl
        · rw [hspec.users]
          rfl
        · rw [hspec.nextP]
          rfl
        · rw [hspec.nextT]
          rfl
    · -- the name already exists: the row is reused, nothing is inserted
      rcases getOrCreateCareTip_found hcnt with ⟨t0, hstep, htmem, htu, htn⟩
      have hndA : CareTipKeysNodup (attachCareTip db pid t0.id).careTips := hnd
      rcases ih (attachCareTip db pid t0.id) u pid hndA with ⟨db2, ids, heq, hspec⟩
      refine ⟨db2, t0.id :: ids, ?_, ?_⟩
      · unfold get_or_create_care_tips
        rw [hstep]
        exact heq
      · obtain ⟨newts, hext⟩ := hspec.ext
        have hextA : db2.careTips = db.careTips ++ newts := hext
        have ht0mem : t0 ∈ db2.careTips := by
          rw [hextA]
          exact List.mem_append_left _ htmem
        have hA : ∀ u2 n2, careTipKeyCount (attachCareTip db pid t0.id).careTips u2 n2 =
            careTipKeyCount db.careTips u2 n2 := fun _ _ => rfl
        refine ⟨hspec.nodup, ⟨newts, hextA⟩, ?_, ?_, ?_, ?_, ?_, ?_, ?_, ?_⟩
        · intro u' n'
          have hc := hspec.count u' n'
          rw [hA u' n'] at hc
          rw [hc]
          by_cases hu : u' = u
          · subst hu
            by_cases hn : n' = nm
            · subst hn
              simp [hcnt, List.mem_cons]
            · simp [hn, List.mem_cons]
          · simp [hu]
        · intro cid hcid
          rcases List.mem_cons.mp hcid with rfl | hcid
          · refine ⟨t0, ht0mem, rfl, htu, ?_⟩
            rw [htn]
            exact List.mem_cons_self _ _
          · rcases hspec.ids_char cid hcid with ⟨t, a, b, c, d⟩
            exact ⟨t, a, b, c, List.mem_cons_of_mem _ d⟩
        · intro n hn
          rcases List.mem_cons.mp hn with heq | hn
          · exact ⟨t0, ht0mem, htu, htn.trans heq.symm, List.mem_cons_self _ _⟩
          · rcases hspec.names_char n hn with ⟨t, a, b, c, d⟩
            exact ⟨t, a, b, c, List.mem_cons_of_mem _ d⟩
        · have hplA : (attachCareTip db pid t0.id).plants =
              db.plants.map
                (guardUpd pid (fun p => { p with care_tips := foldAttach p.care_tips [t0.id] })) :=
            attachCareTip_plants db pid t0.id
          rw [hspec.plants, hplA,
            map_guardUpd_comp db.plants pid
              (fun p => { p with care_tips := foldAttach p.care_tips [t0.id] })
              (fun p => { p with care_tips := foldAttach p.care_tips ids })
              (fun p => rfl)]
          rfl
        · rw [hspec.tagsE]
          rfl
        · rw [hspec.users]
          rfl
        · rw [hspec.nextP]
          rfl
        · rw [hspec.nextT]
          rfl

theorem tagsBase_tags (db : DB) (pid : Int) (o : Option (List String)) :
    (tagsBase db pid o).tags = db.tags := by
  cases o <;> rfl

theorem tagsBase_careTips (db : DB) (pid : Int) (o : Option (List String)) :
    (tagsBase db pid o).careTips = db.careTips := by
  cases o <;> rfl

theorem tipsBase_tags (db : DB) (pid : Int) (o : Option (List String)) :
    (tipsBase db pid o).tags = db.tags := by
  cases o <;> rfl

theorem tipsBase_careTips (db : DB) (pid : Int) (o : Option (List String)) :
    (tipsBase db pid o).careTips = db.careTips := by
  cases o <;> rfl

/-- Attachment of a tag id transfers across a plant-table map that keeps
ids and tag lists. -/
theorem tagAttached_of_mapped {dbA dbB : DB} {pid tid : Int} {f : Plant → Plant}
    (hpl : dbB.plants = dbA.plants.map (guardUpd pid f))
    (htags : ∀ q, (f q).tags = q.tags)
    (h : tagAttached dbA pid tid) : tagAttached dbB pid tid := by
  intro p hp hpid
  rw [hpl] at hp
  rcases List.mem_map.mp hp with ⟨q, hq, rfl⟩
  unfold guardUpd at hpid ⊢
  by_cases hqid : q.id = pid
  · rw [if_pos hqid]
    rw [htags q]
    exact h q hq hqid
  · rw [if_neg hqid] at hpid
    exact absurd hpid hqid

theorem careTipAttached_of_mapped {dbA dbB : DB} {pid cid : Int} {f : Plant → Plant}
    (hpl : dbB.plants = dbA.plants.map (guardUpd pid f))
    (htips : ∀ q, (f q).care_tips = q.care_tips)
    (h : careTipAttached dbA pid cid) : careTipAttached dbB pid cid := by
  intro p hp hpid
  rw [hpl] at hp
  rcases List.mem_map.mp hp with ⟨q, hq, rfl⟩
  unfold guardUpd at hpid ⊢
  by_cases hqid : q.id = pid
  · rw [if_pos hqid]
    rw [htips q]
    exact h q hq hqid
  · rw [if_neg hqid] at hpid
    exact absurd hpid hqid

/-- Every id attached by a tag fold run is attached to the target plant
in the resulting state. -/
theorem tagAttached_of_fold_ids {dbA dbB : DB} {u pid : Int} {names : List String}
    {ids : List Int} (hs : TagFoldSpec dbA u names pid dbB ids) {tid : Int}
    (h : tid ∈ ids) : tagAttached dbB pid tid := by
  intro p hp hpid
  rw [hs.plants] at hp
  rcases List.mem_map.mp hp with ⟨q, hq, rfl⟩
  unfold guardUpd at hpid ⊢
  by_cases hqid : q.id = pid
  · rw [if_pos hqid]
    show tid ∈ foldAttach q.tags ids
    exact mem_foldAttach.mpr (Or.inr h)
  · rw [if_neg hqid] at hpid
    exact absurd hpid hqid

theorem careTipAttached_of_fold_ids {dbA dbB : DB} {u pid : Int} {names : List String}
    {ids : List Int} (hs : CareTipFoldSpec dbA u names pid dbB ids) {cid : Int}
    (h : cid ∈ ids) : careTipAttached dbB pid cid := by
  intro p hp hpid
  rw [hs.plants] at hp
  rcases List.mem_map.mp hp with ⟨q, hq, rfl⟩
  unfold guardUpd at hpid ⊢
  by_cases hqid : q.id = pid
  · rw [if_pos hqid]
    show cid ∈ foldAttach q.care_tips ids
    exact mem_foldAttach.mpr (Or.inr h)
  · rw [if_neg hqid] at hpid
    exact absurd hpid hqid

/-- `PlantSerializer.create` decomposed: the plant insertion followed by
the two get-or-create folds, each satisfying its fold specification. -/
theorem create_spec (db : DB) (u : Int) (vd : ValidatedData)
    (ht : TagKeysNodup db.tags) (hc : CareTipKeysNodup db.careTips) :
    ∃ db2 dbF tids cids,
      PlantSerializer.create db u vd = some (dbF, db.nextPlantId) ∧
      TagFoldSpec (createInsertDB db u vd) u (vd.tags.getD []) db.nextPlantId db2 tids ∧
      CareTipFoldSpec db2 u (vd.care_tips.getD []) db.nextPlantId dbF cids := by
  have ht1 : TagKeysNodup (createInsertDB db u vd).tags := ht
  rcases get_or_create_tags_spec (vd.tags.getD []) (createInsertDB db u vd) u
    db.nextPlantId ht1 with ⟨db2, tids, heq2, hts⟩
  have hc2 : CareTipKeysNodup db2.careTips := by
    rw [hts.tips]
    exact hc
  rcases get_or_create_care_tips_spec (vd.care_tips.getD []) db2 u db.nextPlantId hc2 with
    ⟨dbF, cids, heq3, hcs⟩
  refine ⟨db2, dbF, tids, cids, ?_, hts, hcs⟩
  unfold PlantSerializer.create
  simp only [heq2, heq3]

/-- `PlantSerializer.update` decomposed: the optional clear-and-reattach
step for tags, the one for care tips, then the scalar write. -/
theorem update_spec (db : DB) (u pid : Int) (vd : ValidatedData)
    (ht : TagKeysNodup db.tags) (hc : CareTipKeysNodup db.careTips) :
    ∃ db1 db2 tids cids,
      PlantSerializer.update db u pid vd = some (applyScalars db2 pid vd) ∧
      TagFoldSpec (tagsBase db pid vd.tags) u (vd.tags.getD []) pid db1 tids ∧
      CareTipFoldSpec (tipsBase db1 pid vd.care_tips) u (vd.care_tips.getD []) pid db2 cids := by
  rcases hvt : vd.tags with _ | tnames
  · -- tags key absent
    rcases get_or_create_tags_spec [] db u pid ht with ⟨db1x, tids, heq1, hts⟩
    have hsome : (some db : Option DB) = some db1x := heq1
    have hdb1 : db = db1x := Option.some.inj hsome
    subst hdb1
    rcases hvc : vd.care_tips with _ | cnames
    · rcases get_or_create_care_tips_spec [] db u pid hc with ⟨db2x, cids, heq2, hcs⟩
      have hsome2 : (some db : Option DB) = some db2x := heq2
      have hdb2 : db = db2x := Option.some.inj hsome2
      subst hdb2
      refine ⟨db, db, tids, cids, ?_, hts, hcs⟩
      unfold PlantSerializer.update
      simp only [hvt, hvc]
    · have hcb : CareTipKeysNodup (clearCareTips db pid).careTips := hc
      rcases get_or_create_care_tips_spec cnames (clearCareTips db pid) u pid hcb with
        ⟨db2, cids, heq2, hcs⟩
      refine ⟨db, db2, tids, cids, ?_, hts, hcs⟩
      unfold PlantSerializer.update
      simp only [hvt, hvc, heq2]
  · -- tags key present
    have htb : TagKeysNodup (clearTags db pid).tags := ht
    rcases get_or_create_tags_spec tnames (clearTags db pid) u pid htb with
      ⟨db1, tids, heq1, hts⟩
    have hc1 : CareTipKeysNodup db1.careTips := by
      rw [hts.tips]
      exact hc
    rcases hvc : vd.care_tips with _ | cnames
    · rcases get_or_create_care_tips_spec [] db1 u pid hc1 with ⟨db2x, cids, heq2, hcs⟩
      have hsome2 : (some db1 : Option DB) = some db2x := heq2
      have hdb2 : db1 = db2x := Option.some.inj hsome2
      subst hdb2
      refine ⟨db1, db1, tids, cids, ?_, hts, hcs⟩
      unfold PlantSerializer.update
      simp only [hvt, hvc, heq1]
    · have hcb : CareTipKeysNodup (clearCareTips db1 pid).careTips := hc1
      rcases get_or_create_care_tips_spec cnames (clearCareTips db1 pid) u pid hcb with
        ⟨db2, cids, heq2, hcs⟩
      refine ⟨db1, db2, tids, cids, ?_, hts, hcs⟩
      unfold PlantSerializer.update
      simp only [hvt, hvc, heq1, heq2]

theorem clearTags_plants (db : DB) (pid : Int) :
    (clearTags db pid).plants =
      db.plants.map (guardUpd pid (fun p => { p with tags := [] })) :=
  rfl

theorem clearCareTips_plants (db : DB) (pid : Int) :
    (clearCareTips db pid).plants =
      db.plants.map (guardUpd pid (fun p => { p with care_tips := [] })) :=
  rfl

theorem applyScalars_plants (db : DB) (pid : Int) (vd : ValidatedData) :
    (applyScalars db pid vd).plants =
      db.plants.map (guardUpd pid (fun p =>
        { p with
          title := vd.title.getD p.title
          description := vd.description.getD p.description
          price := vd.price.getD p.price
          link := vd.link.getD p.link })) :=
  rfl

theorem tagNameOutcome_transfer {db0 dbB dbF : DB} {u pid : Int} {nm : String}
    (h : TagNameOutcome db0 dbB u pid nm) (htags : dbF.tags = dbB.tags)
    (htrans : ∀ tid, tagAttached dbB pid tid → tagAttached dbF pid tid) :
    TagNameOutcome db0 dbF u pid nm := by
  constructor
  · intro hpos
    rcases h.1 hpos with ⟨hcnt, t, htm, htu, htn, hat⟩
    exact ⟨by rw [htags]; exact hcnt, t, htm, htu, htn, htrans _ hat⟩
  · intro h0
    rcases h.2 h0 with ⟨hcnt, t, htm, hnot, htu, htn, hat⟩
    refine ⟨by rw [htags]; exact hcnt, t, ?_, hnot, htu, htn, htrans _ hat⟩
    rw [htags]
    exact htm

theorem careTipNameOutcome_transfer {db0 dbB dbF : DB} {u pid : Int} {nm : String}
    (h : CareTipNameOutcome db0 dbB u pid nm) (htips : dbF.careTips = dbB.careTips)
    (htrans : ∀ cid, careTipAttached dbB pid cid → careTipAttached dbF pid cid) :
    CareTipNameOutcome db0 dbF u pid nm := by
  constructor
  · intro hpos
    rcases h.1 hpos with ⟨hcnt, t, htm, htu, htn, hat⟩
    exact ⟨by rw [htips]; exact hcnt, t, htm, htu, htn, htrans _ hat⟩
  · intro h0
    rcases h.2 h0 with ⟨hcnt, t, htm, hnot, htu, htn, hat⟩
    refine ⟨by rw [htips]; exact hcnt, t, ?_, hnot, htu, htn, htrans _ hat⟩
    rw [htips]
    exact htm

theorem tag_fold_outcome (db0 : DB) {dbA dbB : DB} {u pid : Int} {names : List String}
    {tids : List Int} (hts : TagFoldSpec dbA u names pid dbB tids)
    (hbase : dbA.tags = db0.tags) (hnd0 : TagKeysNodup db0.tags) :
    ∀ nm ∈ names, TagNameOutcome db0 dbB u pid nm := by
  intro nm hnm
  have hcount : ∀ u' n', tagKeyCount dbB.tags u' n' =
      if u' = u ∧ n' ∈ names ∧ tagKeyCount db0.tags u' n' = 0 then 1
      else tagKeyCount db0.tags u' n' := by
    intro u' n'
    have h := hts.count u' n'
    rw [hbase] at h
    exact h
  constructor
  · intro hpos
    have h1 : tagKeyCount db0.tags u nm = 1 :=
      le_antisymm (tagKeyCount_le_one hnd0 u nm) hpos
    have hEq : tagKeyCount dbB.tags u nm = tagKeyCount db0.tags u nm := by
      rw [hcount u nm, if_neg]
      rintro ⟨_, _, h0⟩
      omega
    refine ⟨hEq, ?_⟩
    rcases @getOrCreateTag_found db0 u nm h1 with ⟨t0, _, htmem, htu, htn⟩
    rcases hts.names_char nm hnm with ⟨t, htmemB, htuB, htnB, hidB⟩
    have ht0memB : t0 ∈ dbB.tags := by
      obtain ⟨newts, hext⟩ := hts.ext
      rw [hext, hbase]
      exact List.mem_append_left _ htmem
    have hBcount : tagKeyCount dbB.tags u nm = 1 := by
      rw [hEq]
      exact h1
    have hteq : t = t0 :=
      tagKeyCount_one_unique hBcount htmemB htuB htnB ht0memB htu htn
    refine ⟨t0, htmem, htu, htn, ?_⟩
    rw [← hteq]
    exact tagAttached_of_fold_ids hts hidB
  · intro h0
    have h1 : tagKeyCount dbB.tags u nm = 1 := by
      rw [hcount u nm, if_pos ⟨rfl, hnm, h0⟩]
    refine ⟨h1, ?_⟩
    rcases hts.names_char nm hnm with ⟨t, htmemB, htuB, htnB, hidB⟩
    have hnot : ¬ t ∈ db0.tags := by
      intro hmem
      have := tagKeyCount_pos_of_mem hmem htuB htnB
      omega
    exact ⟨t, htmemB, hnot, htuB, htnB, tagAttached_of_fold_ids hts hidB⟩

theorem care_tip_fold_outcome (db0 : DB) {dbA dbB : DB} {u pid : Int}
    {names : List String} {cids : List Int}
    (hcs : CareTipFoldSpec dbA u names pid dbB cids)
    (hbase : dbA.careTips = db0.careTips) (hnd0 : CareTipKeysNodup db0.careTips) :
    ∀ nm ∈ names, CareTipNameOutcome db0 dbB u pid nm := by
  intro nm hnm
  have hcount : ∀ u' n', careTipKeyCount dbB.careTips u' n' =
      if u' = u ∧ n' ∈ names ∧ careTipKeyCount db0.careTips u' n' = 0 then 1
      else careTipKeyCount db0.careTips u' n' := by
    intro u' n'
    have h := hcs.count u' n'
    rw [hbase] at h
    exact h
  constructor
  · intro hpos
    have h1 : careTipKeyCount db0.careTips u nm = 1 :=
      le_antisymm (careTipKeyCount_le_one hnd0 u nm) hpos
    have hEq : careTipKeyCount dbB.careTips u nm = careTipKeyCount db0.careTips u nm := by
      rw [hcount u nm, if_neg]
      rintro ⟨_, _, h0⟩
      omega
    refine ⟨hEq, ?_⟩
    rcases @getOrCreateCareTip_found db0 u nm h1 with ⟨t0, _, htmem, htu, htn⟩
    rcases hcs.names_char nm hnm with ⟨t, htmemB, htuB, htnB, hidB⟩
    have ht0memB : t0 ∈ dbB.careTips := by
      obtain ⟨newts, hext⟩ := hcs.ext
      rw [hext, hbase]
      exact List.mem_append_left _ htmem
    have hBcount : careTipKeyCount dbB.careTips u nm = 1 := by
      rw [hEq]
      exact h1
    have hteq : t = t0 :=
      careTipKeyCount_one_unique hBcount htmemB htuB htnB ht0memB htu htn
    refine ⟨t0, htmem, htu, htn, ?_⟩
    rw [← hteq]
    exact careTipAttached_of_fold_ids hcs hidB
  · intro h0
    have h1 : careTipKeyCount dbB.careTips u nm = 1 := by
      rw [hcount u nm, if_pos ⟨rfl, hnm, h0⟩]
    refine ⟨h1, ?_⟩
    rcases hcs.names_char nm hnm with ⟨t, htmemB, htuB, htnB, hidB⟩
    have hnot : ¬ t ∈ db0.careTips := by
      intro hmem
      have := careTipKeyCount_pos_of_mem hmem htuB htnB
      omega
    exact ⟨t, htmemB, hnot, htuB, htnB, careTipAttached_of_fold_ids hcs hidB⟩

/-! ## Claim theorems: nested upsert-on-write (C4) -/

/-- C4: on a plant create or update carrying inline tag or care-tip name
lists, a name already existing for the requesting user reuses and
attaches the existing label row (the row count of that key is unchanged),
while a name not yet existing gets exactly one new row owned by the
requester, attached to the plant. -/
theorem c4_labels_get_or_created (db : DB) (u : Int) (vd : ValidatedData)
    (ht : TagKeysNodup db.tags) (hc : CareTipKeysNodup db.careTips) :
    (∃ dbF, PlantSerializer.create db u vd = some (dbF, db.nextPlantId) ∧
      GetOrCreateOutcome db dbF u db.nextPlantId (vd.tags.getD []) (vd.care_tips.getD [])) ∧
    (∀ pid, ∃ dbF, PlantSerializer.update db u pid vd = some dbF ∧
      GetOrCreateOutcome db dbF u pid (vd.tags.getD []) (vd.care_tips.getD [])) := by
  constructor
  · rcases create_spec db u vd ht hc with ⟨db2, dbF, tids, cids, hrun, hts, hcs⟩
    refine ⟨dbF, hrun, ?_, ?_⟩
    · intro nm hnm
      have hout := tag_fold_outcome db hts rfl ht nm hnm
      exact tagNameOutcome_transfer hout hcs.tagsE
        (fun tid => tagAttached_of_mapped hcs.plants (fun q => rfl))
    · intro nm hnm
      have hbase : db2.careTips = db.careTips := hts.tips.trans rfl
      exact care_tip_fold_outcome db hcs hbase hc nm hnm
  · intro pid
    rcases update_spec db u pid vd ht hc with ⟨db1, db2, tids, cids, hrun, hts, hcs⟩
    refine ⟨applyScalars db2 pid vd, hrun, ?_, ?_⟩
    · intro nm hnm
      have hout := tag_fold_outcome db hts (tagsBase_tags db pid vd.tags) ht nm hnm
      apply tagNameOutcome_transfer hout
      · exact hcs.tagsE.trans (tipsBase_tags db1 pid vd.care_tips)
      · intro tid hat
        have h1 : tagAttached (tipsBase db1 pid vd.care_tips) pid tid := by
          rcases hvc : vd.care_tips with _ | cnames
          · exact hat
          · exact tagAttached_of_mapped (clearCareTips_plants db1 pid) (fun q => rfl) hat
        have h2 : tagAttached db2 pid tid :=
          tagAttached_of_mapped hcs.plants (fun q => rfl) h1
        exact tagAttached_of_mapped (applyScalars_plants db2 pid vd) (fun q => rfl) h2
    · intro nm hnm
      have hbase : (tipsBase db1 pid vd.care_tips).careTips = db.careTips :=
        (tipsBase_careTips db1 pid vd.care_tips).trans
          (hts.tips.trans (tagsBase_careTips db pid vd.tags))
      have hout := care_tip_fold_outcome db hcs hbase hc nm hnm
      apply careTipNameOutcome_transfer hout (show (applyScalars db2 pid vd).careTips = db2.careTips from rfl)
      intro cid hat
      exact careTipAttached_of_mapped (applyScalars_plants db2 pid vd) (fun q => rfl) hat

/-- Witness for C4 at the concrete sample database: user 1 writes a plant
with one existing tag name, one fresh tag name and one fresh care-tip
name. -/
theorem c4_witness :
    (∃ dbF, PlantSerializer.create sampleDB 1
        { title := some "Monstera", tags := some ["low cost", "fresh tag"],
          care_tips := some ["new tip"] } = some (dbF, sampleDB.nextPlantId) ∧
      GetOrCreateOutcome sampleDB dbF 1 sampleDB.nextPlantId
        (some ["low cost", "fresh tag"] |>.getD [])
        (some ["new tip"] |>.getD [])) ∧
    (∀ pid, ∃ dbF, PlantSerializer.update sampleDB 1 pid
        { title := some "Monstera", tags := some ["low cost", "fresh tag"],
          care_tips := some ["new tip"] } = some dbF ∧
      GetOrCreateOutcome sampleDB dbF 1 pid
        (some ["low cost", "fresh tag"] |>.getD [])
        (some ["new tip"] |>.getD [])) :=
  c4_labels_get_or_created sampleDB 1
    { title := some "Monstera", tags := some ["low cost", "fresh tag"],
      care_tips := some ["new tip"] }
    (by decide) (by decide)

/-! ## Per-plant projections through guarded maps (C5, C6) -/

theorem idTags_map_guardUpd (l : List Plant) (pid : Int) (f : Plant → Plant)
    (hf : ∀ p, (f p).id = p.id ∧ (f p).tags = p.tags) :
    (l.map (guardUpd pid f)).map (fun p => (p.id, p.tags)) =
      l.map (fun p => (p.id, p.tags)) := by
  rw [List.map_map]
  apply List.map_congr_left
  intro p _
  show ((guardUpd pid f p).id, (guardUpd pid f p).tags) = (p.id, p.tags)
  unfold guardUpd
  by_cases h : p.id = pid
  · rw [if_pos h, (hf p).1, (hf p).2]
  · rw [if_neg h]

theorem idCareTips_map_guardUpd (l : List Plant) (pid : Int) (f : Plant → Plant)
    (hf : ∀ p, (f p).id = p.id ∧ (f p).care_tips = p.care_tips) :
    (l.map (guardUpd pid f)).map (fun p => (p.id, p.care_tips)) =
      l.map (fun p => (p.id, p.care_tips)) := by
  rw [List.map_map]
  apply List.map_congr_left
  intro p _
  show ((guardUpd pid f p).id, (guardUpd pid f p).care_tips) = (p.id, p.care_tips)
  unfold guardUpd
  by_cases h : p.id = pid
  · rw [if_pos h, (hf p).1, (hf p).2]
  · rw [if_neg h]

theorem idUser_map_guardUpd (l : List Plant) (pid : Int) (f : Plant → Plant)
    (hf : ∀ p, (f p).id = p.id ∧ (f p).user = p.user) :
    (l.map (guardUpd pid f)).map (fun p => (p.id, p.user)) =
      l.map (fun p => (p.id, p.user)) := by
  rw [List.map_map]
  apply List.map_congr_left
  intro p _
  show ((guardUpd pid f p).id, (guardUpd pid f p).user) = (p.id, p.user)
  unfold guardUpd
  by_cases h : p.id = pid
  · rw [if_pos h, (hf p).1, (hf p).2]
  · rw [if_neg h]

theorem target_tags_of_const_map {l : List Plant} {pid : Int} (g : Plant → Plant)
    (v : List Int) (hg : ∀ q, (g q).id = q.id ∧ (g q).tags = v) :
    ∀ p ∈ l.map (guardUpd pid g), p.id = pid → p.tags = v := by
  intro p hp hpid
  rcases List.mem_map.mp hp with ⟨q, hq, rfl⟩
  unfold guardUpd at hpid ⊢
  by_cases h : q.id = pid
  · rw [if_pos h]
    exact (hg q).2
  · rw [if_neg h] at hpid
    exact absurd hpid h

theorem target_tags_preserved {l : List Plant} {pid : Int} (f : Plant → Plant)
    (hf : ∀ q, (f q).id = q.id ∧ (f q).tags = q.tags) {v : List Int}
    (h : ∀ p ∈ l, p.id = pid → p.tags = v) :
    ∀ p ∈ l.map (guardUpd pid f), p.id = pid → p.tags = v := by
  intro p hp hpid
  rcases List.mem_map.mp hp with ⟨q, hq, rfl⟩
  unfold guardUpd at hpid ⊢
  by_cases hh : q.id = pid
  · rw [if_pos hh, (hf q).2]
    exact h q hq hh
  · rw [if_neg hh] at hpid
    exact absurd hpid hh

theorem target_care_of_const_map {l : List Plant} {pid : Int} (g : Plant → Plant)
    (v : List Int) (hg : ∀ q, (g q).id = q.id ∧ (g q).care_tips = v) :
    ∀ p ∈ l.map (guardUpd pid g), p.id = pid → p.care_tips = v := by
  intro p hp hpid
  rcases List.mem_map.mp hp with ⟨q, hq, rfl⟩
  unfold guardUpd at hpid ⊢
  by_cases h : q.id = pid
  · rw [if_pos h]
    exact (hg q).2
  · rw [if_neg h] at hpid
    exact absurd hpid h

theorem target_care_preserved {l : List Plant} {pid : Int} (f : Plant → Plant)
    (hf : ∀ q, (f q).id = q.id ∧ (f q).care_tips = q.care_tips) {v : List Int}
    (h : ∀ p ∈ l, p.id = pid → p.care_tips = v) :
    ∀ p ∈ l.map (guardUpd pid f), p.id = pid → p.care_tips = v := by
  intro p hp hpid
  rcases List.mem_map.mp hp with ⟨q, hq, rfl⟩
  unfold guardUpd at hpid ⊢
  by_cases hh : q.id = pid
  · rw [if_pos hh, (hf q).2]
    exact h q hq hh
  · rw [if_neg hh] at hpid
    exact absurd hpid hh

/-! ## Claim theorems: update list-key semantics (C5) -/

/-- C5: on a plant update, supplying `tags: []` clears all tag
associations of the target plant, omitting the key leaves every plant's
tag associations unchanged, and supplying a non-empty list replaces the
associations with exactly the named labels; the same holds for the
`care_tips` key. -/
theorem c5_update_respects_list_keys (db : DB) (u pid : Int) (vd : ValidatedData)
    (ht : TagKeysNodup db.tags) (hc : CareTipKeysNodup db.careTips) :
    ∃ dbF, PlantSerializer.update db u pid vd = some dbF ∧
      (vd.tags = none →
        dbF.plants.map (fun p => (p.id, p.tags)) =
          db.plants.map (fun p => (p.id, p.tags))) ∧
      (vd.tags = some [] → ∀ p ∈ dbF.plants, p.id = pid → p.tags = []) ∧
      (∀ names, vd.tags = some names → ∀ p ∈ dbF.plants, p.id = pid →
        ∀ tid, tid ∈ p.tags ↔
          ∃ t ∈ dbF.tags, t.id = tid ∧ t.user = u ∧ t.name ∈ names) ∧
      (vd.care_tips = none →
        dbF.plants.map (fun p => (p.id, p.care_tips)) =
          db.plants.map (fun p => (p.id, p.care_tips))) ∧
      (vd.care_tips = some [] → ∀ p ∈ dbF.plants, p.id = pid → p.care_tips = []) ∧
      (∀ names, vd.care_tips = some names → ∀ p ∈ dbF.plants, p.id = pid →
        ∀ cid, cid ∈ p.care_tips ↔
          ∃ t ∈ dbF.careTips, t.id = cid ∧ t.user = u ∧ t.name ∈ names) := by
  rcases update_spec db u pid vd ht hc with ⟨db1, db2, tids, cids, hrun, hts, hcs⟩
  have htagsF : (applyScalars db2 pid vd).tags = db1.tags :=
    hcs.tagsE.trans (tipsBase_tags db1 pid vd.care_tips)
  have hA : vd.tags = none →
      (applyScalars db2 pid vd).plants.map (fun p => (p.id, p.tags)) =
        db.plants.map (fun p => (p.id, p.tags)) := by
    intro hvt
    rw [hvt] at hts
    have htids : tids = [] := by
      rcases tids with _ | ⟨tid, rest⟩
      · rfl
      · rcases hts.ids_char tid (List.mem_cons_self _ _) with ⟨t, _, _, _, hname⟩
        exact absurd hname (by simp)
    have e4 : db1.plants.map (fun p => (p.id, p.tags)) =
        db.plants.map (fun p => (p.id, p.tags)) := by
      rw [hts.plants, htids,
        map_guardUpd_self (tagsBase db pid none).plants pid
          (fun p => { p with tags := foldAttach p.tags [] }) (fun p => rfl)]
      rfl
    have e3 : (tipsBase db1 pid vd.care_tips).plants.map (fun p => (p.id, p.tags)) =
        db1.plants.map (fun p => (p.id, p.tags)) := by
      rcases vd.care_tips with _ | cnames
      · rfl
      · rw [show (tipsBase db1 pid (some cnames)).plants =
          db1.plants.map (guardUpd pid (fun q => { q with care_tips := [] })) from rfl]
        exact idTags_map_guardUpd db1.plants pid
          (fun q => { q with care_tips := [] }) (fun p => ⟨rfl, rfl⟩)
    have e2 : db2.plants.map (fun p => (p.id, p.tags)) =
        (tipsBase db1 pid vd.care_tips).plants.map (fun p => (p.id, p.tags)) := by
      rw [hcs.plants]
      exact idTags_map_guardUpd _ pid _ (fun p => ⟨rfl, rfl⟩)
    have e1 : (applyScalars db2 pid vd).plants.map (fun p => (p.id, p.tags)) =
        db2.plants.map (fun p => (p.id, p.tags)) := by
      rw [applyScalars_plants]
      exact idTags_map_guardUpd _ pid _ (fun p => ⟨rfl, rfl⟩)
    exact e1.trans (e2.trans (e3.trans e4))
  have hC : ∀ names, vd.tags = some names →
      ∀ p ∈ (applyScalars db2 pid vd).plants, p.id = pid →
        ∀ tid, tid ∈ p.tags ↔
          ∃ t ∈ (applyScalars db2 pid vd).tags, t.id = tid ∧ t.user = u ∧
            t.name ∈ names := by
    intro names hvt p hp hpid tid
    rw [hvt] at hts
    have hb1 : ∀ q ∈ db1.plants, q.id = pid → q.tags = foldAttach [] tids := by
      rw [hts.plants]
      rw [show (tagsBase db pid (some names)).plants =
        db.plants.map (guardUpd pid (fun q => { q with tags := [] })) from rfl]
      rw [map_guardUpd_comp db.plants pid (fun q => { q with tags := [] })
        (fun q => { q with tags := foldAttach q.tags tids }) (fun q => rfl)]
      exact target_tags_of_const_map _ (foldAttach [] tids) (fun q => ⟨rfl, rfl⟩)
    have hb2 : ∀ q ∈ (tipsBase db1 pid vd.care_tips).plants, q.id = pid →
        q.tags = foldAttach [] tids := by
      rcases vd.care_tips with _ | cnames
      · exact hb1
      · rw [show (tipsBase db1 pid (some cnames)).plants =
          db1.plants.map (guardUpd pid (fun q => { q with care_tips := [] })) from rfl]
        exact target_tags_preserved (fun q => { q with care_tips := [] }) (fun q => ⟨rfl, rfl⟩) hb1
    have hb3 : ∀ q ∈ db2.plants, q.id = pid → q.tags = foldAttach [] tids := by
      rw [hcs.plants]
      exact target_tags_preserved
        (fun p => { p with care_tips := foldAttach p.care_tips cids })
        (fun q => ⟨rfl, rfl⟩) hb2
    have hb4 : ∀ q ∈ (applyScalars db2 pid vd).plants, q.id = pid →
        q.tags = foldAttach [] tids := by
      rw [applyScalars_plants]
      exact target_tags_preserved (fun p => { p with
          title := vd.title.getD p.title
          description := vd.description.getD p.description
          price := vd.price.getD p.price
          link := vd.link.getD p.link }) (fun q => ⟨rfl, rfl⟩) hb3
    rw [hb4 p hp hpid, mem_foldAttach]
    simp only [List.not_mem_nil, false_or]
    constructor
    · intro htid
      rcases hts.ids_char tid htid with ⟨t, htm, hid, htu, htn⟩
      refine ⟨t, ?_, hid, htu, htn⟩
      rw [htagsF]
      exact htm
    · rintro ⟨t, htm, hid, htu, htn⟩
      rw [htagsF] at htm
      rcases hts.names_char t.name htn with ⟨t2, htmB, htuB, htnB, hidB⟩
      have hcnt : tagKeyCount db1.tags u t.name = 1 := by
        have hle := tagKeyCount_le_one hts.nodup u t.name
        have hpos := tagKeyCount_pos_of_mem htm htu rfl
        omega
      have heq2 : t2 = t := tagKeyCount_one_unique hcnt htmB htuB htnB htm htu rfl
      rw [← hid]
      rw [heq2] at hidB
      exact hidB
  have hB : vd.tags = some [] →
      ∀ p ∈ (applyScalars db2 pid vd).plants, p.id = pid → p.tags = [] := by
    intro hvt p hp hpid
    rw [List.eq_nil_iff_forall_not_mem]
    intro tid htid
    rcases (hC [] hvt p hp hpid tid).mp htid with ⟨t, _, _, _, hn⟩
    simp at hn
  have hD : vd.care_tips = none →
      (applyScalars db2 pid vd).plants.map (fun p => (p.id, p.care_tips)) =
        db.plants.map (fun p => (p.id, p.care_tips)) := by
    intro hvc
    rw [hvc] at hcs
    have hcids : cids = [] := by
      rcases cids with _ | ⟨cid, rest⟩
      · rfl
      · rcases hcs.ids_char cid (List.mem_cons_self _ _) with ⟨t, _, _, _, hname⟩
        exact absurd hname (by simp)
    have e4 : db1.plants.map (fun p => (p.id, p.care_tips)) =
        db.plants.map (fun p => (p.id, p.care_tips)) := by
      have estep : db1.plants.map (fun p => (p.id, p.care_tips)) =
          (tagsBase db pid vd.tags).plants.map (fun p => (p.id, p.care_tips)) := by
        rw [hts.plants]
        exact idCareTips_map_guardUpd _ pid _ (fun p => ⟨rfl, rfl⟩)
      have ebase : (tagsBase db pid vd.tags).plants.map (fun p => (p.id, p.care_tips)) =
          db.plants.map (fun p => (p.id, p.care_tips)) := by
        rcases vd.tags with _ | tnames
        · rfl
        · exact idCareTips_map_guardUpd db.plants pid
            (fun q => { q with tags := [] }) (fun p => ⟨rfl, rfl⟩)
      exact estep.trans ebase
    have e2 : db2.plants.map (fun p => (p.id, p.care_tips)) =
        db1.plants.map (fun p => (p.id, p.care_tips)) := by
      rw [hcs.plants, hcids,
        map_guardUpd_self (tipsBase db1 pid none).plants pid
          (fun p => { p with care_tips := foldAttach p.care_tips [] }) (fun p => rfl)]
      rfl
    have e1 : (applyScalars db2 pid vd).plants.map (fun p => (p.id, p.care_tips)) =
        db2.plants.map (fun p => (p.id, p.care_tips)) := by
      rw [applyScalars_plants]
      exact idCareTips_map_guardUpd _ pid _ (fun p => ⟨rfl, rfl⟩)
    exact e1.trans (e2.trans e4)
  have hF : ∀ names, vd.care_tips = some names →
      ∀ p ∈ (applyScalars db2 pid vd).plants, p.id = pid →
        ∀ cid, cid ∈ p.care_tips ↔
          ∃ t ∈ (applyScalars db2 pid vd).careTips, t.id = cid ∧ t.user = u ∧
            t.name ∈ names := by
    intro names hvc p hp hpid cid
    rw [hvc] at hcs
    have hb2 : ∀ q ∈ db2.plants, q.id = pid → q.care_tips = foldAttach [] cids := by
      rw [hcs.plants]
      rw [show (tipsBase db1 pid (some names)).plants =
        db1.plants.map (guardUpd pid (fun q => { q with care_tips := [] })) from rfl]
      rw [map_guardUpd_comp db1.plants pid (fun q => { q with care_tips := [] })
        (fun q => { q with care_tips := foldAttach q.care_tips cids }) (fun q => rfl)]
      exact target_care_of_const_map _ (foldAttach [] cids) (fun q => ⟨rfl, rfl⟩)
    have hb3 : ∀ q ∈ (applyScalars db2 pid vd).plants, q.id = pid →
        q.care_tips = foldAttach [] cids := by
      rw [applyScalars_plants]
      exact target_care_preserved (fun p => { p with
          title := vd.title.getD p.title
          description := vd.description.getD p.description
          price := vd.price.getD p.price
          link := vd.link.getD p.link }) (fun q => ⟨rfl, rfl⟩) hb2
    rw [hb3 p hp hpid, mem_foldAttach]
    simp only [List.not_mem_nil, false_or]
    constructor
    · intro hcid
      rcases hcs.ids_char cid hcid with ⟨t, htm, hid, htu, htn⟩
      exact ⟨t, htm, hid, htu, htn⟩
    · rintro ⟨t, htm, hid, htu, htn⟩
      have htm2 : t ∈ db2.careTips := htm
      rcases hcs.names_char t.name htn with ⟨t2, htmB, htuB, htnB, hidB⟩
      have hcnt : careTipKeyCount db2.careTips u t.name = 1 := by
        have hle := careTipKeyCount_le_one hcs.nodup u t.name
        have hpos := careTipKeyCount_pos_of_mem htm2 htu rfl
        omega
      have heq2 : t2 = t := careTipKeyCount_one_unique hcnt htmB htuB htnB htm2 htu rfl
      rw [← hid]
      rw [heq2] at hidB
      exact hidB
  have hE : vd.care_tips = some [] →
      ∀ p ∈ (applyScalars db2 pid vd).plants, p.id = pid → p.care_tips = [] := by
    intro hvc p hp hpid
    rw [List.eq_nil_iff_forall_not_mem]
    intro cid hcid
    rcases (hF [] hvc p hp hpid cid).mp hcid with ⟨t, _, _, _, hn⟩
    simp at hn
  exact ⟨applyScalars db2 pid vd, hrun, hA, hB, hC, hD, hE, hF⟩

/-- Witness for C5 at the concrete sample database: user 1 updates plant
10 supplying a fresh tag list and no care-tips key. -/
theorem c5_witness :
    ∃ dbF, PlantSerializer.update sampleDB 1 10
        { tags := some ["popular", "easy"], care_tips := none } = some dbF ∧
      (({ tags := some ["popular", "easy"], care_tips := none } : ValidatedData).tags = none →
        dbF.plants.map (fun p => (p.id, p.tags)) =
          sampleDB.plants.map (fun p => (p.id, p.tags))) ∧
      (({ tags := some ["popular", "easy"], care_tips := none } : ValidatedData).tags = some [] →
        ∀ p ∈ dbF.plants, p.id = 10 → p.tags = []) ∧
      (∀ names,
        ({ tags := some ["popular", "easy"], care_tips := none } : ValidatedData).tags =
          some names →
        ∀ p ∈ dbF.plants, p.id = 10 → ∀ tid, tid ∈ p.tags ↔
          ∃ t ∈ dbF.tags, t.id = tid ∧ t.user = 1 ∧ t.name ∈ names) ∧
      (({ tags := some ["popular", "easy"], care_tips := none } : ValidatedData).care_tips =
          none →
        dbF.plants.map (fun p => (p.id, p.care_tips)) =
          sampleDB.plants.map (fun p => (p.id, p.care_tips))) ∧
      (({ tags := some ["popular", "easy"], care_tips := none } : ValidatedData).care_tips =
          some [] → ∀ p ∈ dbF.plants, p.id = 10 → p.care_tips = []) ∧
      (∀ names,
        ({ tags := some ["popular", "easy"], care_tips := none } : ValidatedData).care_tips =
          some names →
        ∀ p ∈ dbF.plants, p.id = 10 → ∀ cid, cid ∈ p.care_tips ↔
          ∃ t ∈ dbF.careTips, t.id = cid ∧ t.user = 1 ∧ t.name ∈ names) :=
  c5_update_respects_list_keys sampleDB 1 10
    { tags := some ["popular", "easy"], care_tips := none } (by decide) (by decide)

theorem target_scalars_preserved {l : List Plant} {pid : Int} (f : Plant → Plant)
    (hf : ∀ q, (f q).id = q.id ∧ SameScalarsAs q (f q)) {p : Plant}
    (h : ∀ q ∈ l, q.id = pid → SameScalarsAs p q) :
    ∀ q ∈ l.map (guardUpd pid f), q.id = pid → SameScalarsAs p q := by
  intro q hq hqid
  rcases List.mem_map.mp hq with ⟨r, hr, rfl⟩
  unfold guardUpd at hqid ⊢
  by_cases hh : r.id = pid
  · rw [if_pos hh]
    rcases hf r with ⟨_, hu, htt, hd, hpr, hl⟩
    rcases h r hr hh with ⟨hu0, ht0, hd0, hp0, hl0⟩
    exact ⟨hu.trans hu0, htt.trans ht0, hd.trans hd0, hpr.trans hp0, hl.trans hl0⟩
  · rw [if_neg hh] at hqid
    exact absurd hqid hh

/-- C6: a plant update through the serializer never changes any plant's
owner — a supplied owner (or id) value in the body is silently dropped by
validation rather than rejected — while the supplied scalar fields are
applied to the target plant. -/
theorem c6_update_ignores_owner (db : DB) (u pid : Int) (b : RawBody)
    (ht : TagKeysNodup db.tags) (hc : CareTipKeysNodup db.careTips)
    (hids : (db.plants.map (fun p => p.id)).Nodup) :
    ∃ dbF, PlantSerializer.run_update db u pid b = some dbF ∧
      PlantSerializer.run_update db u pid b =
        PlantSerializer.run_update db u pid { b with user := none, id := none } ∧
      dbF.plants.map (fun p => (p.id, p.user)) =
        db.plants.map (fun p => (p.id, p.user)) ∧
      (∀ p ∈ db.plants, p.id = pid → ∀ p2 ∈ dbF.plants, p2.id = pid →
        p2.user = p.user ∧
        p2.title = b.title.getD p.title ∧
        p2.description = b.description.getD p.description ∧
        p2.price = b.price.getD p.price ∧
        p2.link = b.link.getD p.link) := by
  rcases update_spec db u pid (PlantSerializer.to_internal_value b) ht hc with
    ⟨db1, db2, tids, cids, hrun, hts, hcs⟩
  refine ⟨applyScalars db2 pid (PlantSerializer.to_internal_value b), hrun, rfl, ?_, ?_⟩
  · -- the (id, owner) projection of the plant table is unchanged
    have g1 : db1.plants.map (fun p => (p.id, p.user)) =
        db.plants.map (fun p => (p.id, p.user)) := by
      have estep : db1.plants.map (fun p => (p.id, p.user)) =
          (tagsBase db pid (PlantSerializer.to_internal_value b).tags).plants.map
            (fun p => (p.id, p.user)) := by
        rw [hts.plants]
        exact idUser_map_guardUpd _ pid _ (fun p => ⟨rfl, rfl⟩)
      have ebase : (tagsBase db pid (PlantSerializer.to_internal_value b).tags).plants.map
          (fun p => (p.id, p.user)) = db.plants.map (fun p => (p.id, p.user)) := by
        rcases (PlantSerializer.to_internal_value b).tags with _ | tn
        · rfl
        · exact idUser_map_guardUpd db.plants pid
            (fun q => { q with tags := [] }) (fun p => ⟨rfl, rfl⟩)
      exact estep.trans ebase
    have g2 : db2.plants.map (fun p => (p.id, p.user)) =
        db1.plants.map (fun p => (p.id, p.user)) := by
      have estep : db2.plants.map (fun p => (p.id, p.user)) =
          (tipsBase db1 pid (PlantSerializer.to_internal_value b).care_tips).plants.map
            (fun p => (p.id, p.user)) := by
        rw [hcs.plants]
        exact idUser_map_guardUpd _ pid _ (fun p => ⟨rfl, rfl⟩)
      have ebase : (tipsBase db1 pid (PlantSerializer.to_internal_value b).care_tips).plants.map
          (fun p => (p.id, p.user)) = db1.plants.map (fun p => (p.id, p.user)) := by
        rcases (PlantSerializer.to_internal_value b).care_tips with _ | cn
        · rfl
        · exact idUser_map_guardUpd db1.plants pid
            (fun q => { q with care_tips := [] }) (fun p => ⟨rfl, rfl⟩)
      exact estep.trans ebase
    have g3 : (applyScalars db2 pid (PlantSerializer.to_internal_value b)).plants.map
        (fun p => (p.id, p.user)) = db2.plants.map (fun p => (p.id, p.user)) := by
      rw [applyScalars_plants]
      exact idUser_map_guardUpd _ pid _ (fun p => ⟨rfl, rfl⟩)
    exact g3.trans (g2.trans g1)
  · -- owner and scalar fields at the target plant
    intro p hp hpid p2 hp2 hpid2
    have hbase : ∀ q ∈ db.plants, q.id = pid → SameScalarsAs p q := by
      intro q hq hqid
      have hqp : q = p := List.inj_on_of_nodup_map hids hq hp (by rw [hqid, hpid])
      rw [hqp]
      exact ⟨rfl, rfl, rfl, rfl, rfl⟩
    have h1 : ∀ q ∈ db1.plants, q.id = pid → SameScalarsAs p q := by
      rw [hts.plants]
      refine target_scalars_preserved (fun p3 => { p3 with tags := foldAttach p3.tags tids })
        (fun q => ⟨rfl, rfl, rfl, rfl, rfl, rfl⟩) ?_
      rcases (PlantSerializer.to_internal_value b).tags with _ | tn
      · exact hbase
      · exact target_scalars_preserved (fun q => { q with tags := [] })
          (fun q => ⟨rfl, rfl, rfl, rfl, rfl, rfl⟩) hbase
    have h2 : ∀ q ∈ (tipsBase db1 pid (PlantSerializer.to_internal_value b).care_tips).plants,
        q.id = pid → SameScalarsAs p q := by
      rcases (PlantSerializer.to_internal_value b).care_tips with _ | cn
      · exact h1
      · exact target_scalars_preserved (fun q => { q with care_tips := [] })
          (fun q => ⟨rfl, rfl, rfl, rfl, rfl, rfl⟩) h1
    have h3 : ∀ q ∈ db2.plants, q.id = pid → SameScalarsAs p q := by
      rw [hcs.plants]
      exact target_scalars_preserved
        (fun p3 => { p3 with care_tips := foldAttach p3.care_tips cids })
        (fun q => ⟨rfl, rfl, rfl, rfl, rfl, rfl⟩) h2
    rw [applyScalars_plants] at hp2
    rcases List.mem_map.mp hp2 with ⟨q2, hq2, rfl⟩
    have hq2id : q2.id = pid := by
      unfold guardUpd at hpid2
      by_cases hh : q2.id = pid
      · exact hh
      · rw [if_neg hh] at hpid2
        exact absurd hpid2 hh
    have hg : guardUpd pid (fun p3 => { p3 with
        title := (PlantSerializer.to_internal_value b).title.getD p3.title
        description := (PlantSerializer.to_internal_value b).description.getD p3.description
        price := (PlantSerializer.to_internal_value b).price.getD p3.price
        link := (PlantSerializer.to_internal_value b).link.getD p3.link }) q2 =
        { q2 with
          title := (PlantSerializer.to_internal_value b).title.getD q2.title
          description := (PlantSerializer.to_internal_value b).description.getD q2.description
          price := (PlantSerializer.to_internal_value b).price.getD q2.price
          link := (PlantSerializer.to_internal_value b).link.getD q2.link } := by
      unfold guardUpd
      rw [if_pos hq2id]
    rcases h3 q2 hq2 hq2id with ⟨hu2, ht2, hd2, hpr2, hl2⟩
    rw [hg]
    refine ⟨hu2, ?_, ?_, ?_, ?_⟩
    · show b.title.getD q2.title = b.title.getD p.title
      rw [ht2]
    · show b.description.getD q2.description = b.description.getD p.description
      rw [hd2]
    · show b.price.getD q2.price = b.price.getD p.price
      rw [hpr2]
    · show b.link.getD q2.link = b.link.getD p.link
      rw [hl2]

/-- Witness for C6 at the concrete sample database: user 1 updates plant
10 with a body that also supplies an owner value of 2; the update
succeeds, ignores the owner and applies the title. -/
theorem c6_witness :
    ∃ dbF, PlantSerializer.run_update sampleDB 1 10
        { title := some "Renamed", user := some 2 } = some dbF ∧
      PlantSerializer.run_update sampleDB 1 10 { title := some "Renamed", user := some 2 } =
        PlantSerializer.run_update sampleDB 1 10
          { ({ title := some "Renamed", user := some 2 } : RawBody) with
            user := none
            id := none } ∧
      dbF.plants.map (fun p => (p.id, p.user)) =
        sampleDB.plants.map (fun p => (p.id, p.user)) ∧
      (∀ p ∈ sampleDB.plants, p.id = 10 → ∀ p2 ∈ dbF.plants, p2.id = 10 →
        p2.user = p.user ∧
        p2.title = (some "Renamed").getD p.title ∧
        p2.description = (none : Option String).getD p.description ∧
        p2.price = (none : Option Int).getD p.price ∧
        p2.link = (none : Option String).getD p.link) :=
  c6_update_ignores_owner sampleDB 1 10 { title := some "Renamed", user := some 2 }
    (by decide) (by decide) (by decide)
